import Mathlib

/-! battlestarcap/pkcs11: session objects, key verbs and GCM parameters

A shallow embedding of `p11/object.go`, `p11/crypto.go` and `params.go`.

* A Go slice is an `Option (List α)`: `none` is the nil slice, `some []` an
  empty non-nil slice.
* A Go `error` is an `Option GoError`: `none` is the nil error.
* The native boundary (`pkcs11.Ctx`) is a record of state transformers over
  an arbitrary device state `σ`; every call through it is appended to the
  trace of the `World`, next to the `Lock` / `Unlock` events of the session
  mutex.
* A call that never returns in a single thread (locking a mutex that is
  already held) or that panics (unlocking a free mutex, indexing out of
  range, a negative length in `C.GoBytes`) evaluates to `none`.
* Foreign (C) memory is a `Heap` of live blocks with a log of the addresses
  handed to `free`. Storage never runs out.
* Two threads on one session are a pair of program positions over the one
  `World`; a schedule picks which thread makes the next mutex operation or
  native call, and a thread that waits for the mutex cannot be picked.
* Go `int` is `Int` and lengths are `Nat`; the conversions to C integer
  types that `params.go` writes down, `C.CK_ULONG(x)` and `C.int(x)`, wrap
  as the C types do. The width `w` of `CK_ULONG` is a parameter.
-/

namespace pkcs11

/-- One byte. -/
abbrev Byte := Fin 256

/-- A Go slice: `none` is the nil slice. -/
abbrev Slice (α : Type) := Option (List α)

/-- Go `len(s)`. -/
def Slice.len {α : Type} : Slice α → Nat
  | none => 0
  | some l => l.length

/-- Go `s[i]`: `none` stands for the index-out-of-range panic. -/
def Slice.index {α : Type} : Slice α → Nat → Option α
  | none, _ => none
  | some l, i => l.get? i

/-- The dynamic values a Go `error` interface holds in this code: a
`pkcs11.Error` status code, or the string error built by `errors.New`. -/
inductive GoError where
  | Error (code : Nat)
  | errorString (msg : String)
  deriving DecidableEq

/-- A Go `error`: `none` is nil. -/
abbrev error := Option GoError

/-- Modelled from the spec: the protocol's "attribute type invalid" status.
The constant is declared in another file of package `pkcs11`; the value is
the one PKCS#11 gives it. No theorem below depends on the number. -/
def CKR_ATTRIBUTE_TYPE_INVALID : Nat := 0x12

/-- Modelled from the spec: an attribute is a `(type-code, value)` pair. The
type is declared in another file of package `pkcs11`. -/
structure Attribute where
  Typ : Nat
  Value : Slice Byte
  deriving DecidableEq

/-- Modelled from the spec: `NewAttribute(typ, x)` pairs a type code with a
value; the constructor is declared in another file of package `pkcs11`. -/
def NewAttribute (typ : Nat) (x : Slice Byte) : Attribute :=
  { Typ := typ, Value := x }

set_option linter.dupNamespace false in
/-- Modelled from the spec: a mechanism is a named algorithm plus its
parameters. The type is declared in another file of package `pkcs11`. -/
structure Mechanism where
  Mechanism : Nat
  Parameter : Slice Byte
  deriving DecidableEq

abbrev SessionHandle := Nat
abbrev ObjectHandle := Nat

end pkcs11

namespace p11

open pkcs11

/-- What a session sees: mutex operations and the native calls with their
arguments. -/
inductive Event where
  | Lock
  | Unlock
  | GetAttributeValue (sh : SessionHandle) (o : ObjectHandle) (a : Slice Attribute)
  | DecryptInit (sh : SessionHandle) (m : Slice Mechanism) (o : ObjectHandle)
  | Decrypt (sh : SessionHandle) (cipher : Slice Byte)
  | SignInit (sh : SessionHandle) (m : Slice Mechanism) (o : ObjectHandle)
  | Sign (sh : SessionHandle) (message : Slice Byte)
  | VerifyInit (sh : SessionHandle) (m : Slice Mechanism) (o : ObjectHandle)
  | Verify (sh : SessionHandle) (data : Slice Byte) (signature : Slice Byte)
  | EncryptInit (sh : SessionHandle) (m : Slice Mechanism) (o : ObjectHandle)
  | Encrypt (sh : SessionHandle) (message : Slice Byte)
  deriving DecidableEq

/-- The native boundary `*pkcs11.Ctx`, as state transformers over a device
state `σ`. Each method may return any result and any error, and may change
the device. -/
structure Ctx (σ : Type) where
  GetAttributeValue : SessionHandle → ObjectHandle → Slice Attribute → σ →
    (Slice Attribute × error) × σ
  DecryptInit : SessionHandle → Slice Mechanism → ObjectHandle → σ → error × σ
  Decrypt : SessionHandle → Slice Byte → σ → (Slice Byte × error) × σ
  SignInit : SessionHandle → Slice Mechanism → ObjectHandle → σ → error × σ
  Sign : SessionHandle → Slice Byte → σ → (Slice Byte × error) × σ
  VerifyInit : SessionHandle → Slice Mechanism → ObjectHandle → σ → error × σ
  Verify : SessionHandle → Slice Byte → Slice Byte → σ → error × σ
  EncryptInit : SessionHandle → Slice Mechanism → ObjectHandle → σ → error × σ
  Encrypt : SessionHandle → Slice Byte → σ → (Slice Byte × error) × σ

/-- The immutable part of `SessionImpl`: calling context and session handle. -/
structure SessionImpl (σ : Type) where
  Ctx : Ctx σ
  Handle : SessionHandle

/-- The mutable state a session operation runs against: the device, the
session mutex, and the trace of events issued so far. -/
structure World (σ : Type) where
  dev : σ
  locked : Bool
  trace : List Event

/-- One native call: run it on the device and record it. -/
def World.call {σ α : Type} (w : World σ) (e : Event) (f : σ → α × σ) : α × World σ :=
  ((f w.dev).1, { w with dev := (f w.dev).2, trace := w.trace ++ [e] })

/-- The mutex `Lock()`: with the mutex held the caller never proceeds. -/
def SessionImpl.Lock {σ : Type} (_s : SessionImpl σ) (w : World σ) : Option (World σ) :=
  if w.locked then none
  else some { w with locked := true, trace := w.trace ++ [Event.Lock] }

/-- The mutex `Unlock()`: unlocking a free mutex is a fatal error. -/
def SessionImpl.Unlock {σ : Type} (_s : SessionImpl σ) (w : World σ) : Option (World σ) :=
  if w.locked then some { w with locked := false, trace := w.trace ++ [Event.Unlock] }
  else none

/-- The frame `s.Lock(); defer s.Unlock(); body`: the deferred unlock runs
after the body has produced its return values, on every return path. -/
def SessionImpl.withLock {σ α : Type} (s : SessionImpl σ)
    (body : World σ → Option (α × World σ)) (w : World σ) : Option (α × World σ) := do
  let w1 ← s.Lock w
  let (r, w2) ← body w1
  let w3 ← s.Unlock w2
  pure (r, w3)

/-- The struct `Object`. -/
structure Object (σ : Type) where
  Session : SessionImpl σ
  ObjectHandle : ObjectHandle

/-- The type `PublicKey Object`. -/
abbrev PublicKey (σ : Type) := Object σ

/-- The type `PrivateKey Object`. -/
abbrev PrivateKey (σ : Type) := Object σ

/-- The method `Object.Attribute`. -/
def Object.Attribute {σ : Type} (o : Object σ) (attributeType : Nat) (w : World σ) :
    Option ((Slice Byte × error) × World σ) :=
  o.Session.withLock (fun w =>
    let tmpl : Slice pkcs11.Attribute := some [NewAttribute attributeType none]
    let r := w.call (Event.GetAttributeValue o.Session.Handle o.ObjectHandle tmpl)
      (o.Session.Ctx.GetAttributeValue o.Session.Handle o.ObjectHandle tmpl)
    let attrs := r.1.1
    let err := r.1.2
    let w := r.2
    if err = some (GoError.Error CKR_ATTRIBUTE_TYPE_INVALID) then
      some ((none, none), w)
    else if err ≠ none then
      some ((none, err), w)
    else if Slice.len attrs = 0 then
      some ((none, some (GoError.errorString "attribute not found")), w)
    else if Slice.len attrs > 1 then
      some ((none, some (GoError.errorString "too many attributes found")), w)
    else
      (Slice.index attrs 0).map fun a => ((a.Value, none), w)) w

/-- The method `PrivateKey.Decrypt`. -/
def PrivateKey.Decrypt {σ : Type} (priv : PrivateKey σ) (mechanism : Mechanism)
    (ciphertext : Slice Byte) (w : World σ) : Option ((Slice Byte × error) × World σ) :=
  let s := priv.Session
  s.withLock (fun w =>
    let r1 := w.call (Event.DecryptInit s.Handle (some [mechanism]) priv.ObjectHandle)
      (s.Ctx.DecryptInit s.Handle (some [mechanism]) priv.ObjectHandle)
    let err := r1.1
    if err ≠ none then
      some ((none, err), r1.2)
    else
      let r2 := r1.2.call (Event.Decrypt s.Handle ciphertext) (s.Ctx.Decrypt s.Handle ciphertext)
      let out := r2.1.1
      let err := r2.1.2
      if err ≠ none then
        some ((none, err), r2.2)
      else
        some ((out, none), r2.2)) w

/-- The method `PrivateKey.Sign`. -/
def PrivateKey.Sign {σ : Type} (priv : PrivateKey σ) (mechanism : Mechanism)
    (message : Slice Byte) (w : World σ) : Option ((Slice Byte × error) × World σ) :=
  let s := priv.Session
  s.withLock (fun w =>
    let r1 := w.call (Event.SignInit s.Handle (some [mechanism]) priv.ObjectHandle)
      (s.Ctx.SignInit s.Handle (some [mechanism]) priv.ObjectHandle)
    let err := r1.1
    if err ≠ none then
      some ((none, err), r1.2)
    else
      let r2 := r1.2.call (Event.Sign s.Handle message) (s.Ctx.Sign s.Handle message)
      let out := r2.1.1
      let err := r2.1.2
      if err ≠ none then
        some ((none, err), r2.2)
      else
        some ((out, none), r2.2)) w

/-- The method `PublicKey.Verify`. -/
def PublicKey.Verify {σ : Type} (pub : PublicKey σ) (mechanism : Mechanism)
    (message signature : Slice Byte) (w : World σ) : Option (error × World σ) :=
  let s := pub.Session
  s.withLock (fun w =>
    let r1 := w.call (Event.VerifyInit s.Handle (some [mechanism]) pub.ObjectHandle)
      (s.Ctx.VerifyInit s.Handle (some [mechanism]) pub.ObjectHandle)
    let err := r1.1
    if err ≠ none then
      some (err, r1.2)
    else
      let r2 := r1.2.call (Event.Verify s.Handle message signature)
        (s.Ctx.Verify s.Handle message signature)
      let err := r2.1
      if err ≠ none then
        some (err, r2.2)
      else
        some (none, r2.2)) w

/-- The method `PublicKey.Encrypt`. -/
def PublicKey.Encrypt {σ : Type} (pub : PublicKey σ) (mechanism : Mechanism)
    (plaintext : Slice Byte) (w : World σ) : Option ((Slice Byte × error) × World σ) :=
  let s := pub.Session
  s.withLock (fun w =>
    let r1 := w.call (Event.EncryptInit s.Handle (some [mechanism]) pub.ObjectHandle)
      (s.Ctx.EncryptInit s.Handle (some [mechanism]) pub.ObjectHandle)
    let err := r1.1
    if err ≠ none then
      some ((none, err), r1.2)
    else
      let r2 := r1.2.call (Event.Encrypt s.Handle plaintext) (s.Ctx.Encrypt s.Handle plaintext)
      let out := r2.1.1
      let err := r2.1.2
      if err ≠ none then
        some ((none, err), r2.2)
      else
        some ((out, none), r2.2)) w

end p11

namespace pkcs11

/-- An address in foreign (C) memory; `0` is the null pointer. -/
abbrev Ptr := Nat

/-- Foreign memory: the blocks that are allocated and not yet released, each
with its current contents, and the log of the addresses handed to `free`. -/
structure Heap where
  live : List (Ptr × List Byte)
  released : List Ptr
  deriving DecidableEq

/-- The heap before any allocation. -/
def Heap.empty : Heap := { live := [], released := [] }

/-- An address that is not null and was never handed out. -/
def Heap.fresh (h : Heap) : Ptr :=
  (h.live.map Prod.fst ++ h.released).foldr max 0 + 1

/-- The current contents of the live block at `ptr`, if there is one. -/
def Heap.lookup (h : Heap) (ptr : Ptr) : Option (List Byte) :=
  (h.live.find? fun b => b.1 = ptr).map Prod.snd

/-- A new block holding `bytes`. -/
def Heap.alloc (h : Heap) (bytes : List Byte) : Ptr × Heap :=
  (h.fresh, { h with live := h.live ++ [(h.fresh, bytes)] })

/-- C `free(ptr)`. -/
def Heap.free (h : Heap) (ptr : Ptr) : Heap :=
  { live := h.live.filter (fun b => b.1 ≠ ptr), released := h.released ++ [ptr] }

/-- A write by the device (or by anyone holding the pointer) into the live
block at `ptr`: the block's contents become `bytes`. No block, no change. -/
def Heap.store (h : Heap) (ptr : Ptr) (bytes : List Byte) : Heap :=
  { h with live := h.live.map fun b => if b.1 = ptr then (b.1, bytes) else b }

/-- Modelled from the spec: the Foreign Parameter Arena, "an append-only list
of allocated buffers". The type is declared in another file of the package;
`params.go` compares it with `nil`, so it is a nillable record of pointers. -/
abbrev arena := Slice Ptr

/-- Modelled from the spec: `allocate(bytes) -> (foreign_pointer, length)`
"copies `bytes` into newly acquired foreign-compatible storage and records
the allocation for later release". The method is declared with the type,
in another file of the package. Storage is always available here, and the
address of a new block is never null and never one handed out before. -/
def arena.Allocate (a : arena) (obj : Slice Byte) (h : Heap) : (Ptr × Nat) × arena × Heap :=
  let bytes := obj.getD []
  let r := h.alloc bytes
  ((r.1, bytes.length), some (a.getD [] ++ [r.1]), r.2)

/-- Modelled from the spec: `free()` "releases every recorded allocation and
clears the record". The method is declared with the type, in another file
of the package. -/
def arena.Free (a : arena) (h : Heap) : arena × Heap :=
  (none, (a.getD []).foldl Heap.free h)

/-- The conversion `C.CK_ULONG(x)` of a Go `int`: the value modulo `2^w`,
where `w` is the width of `CK_ULONG` (`unsigned long` in the PKCS#11 header
`pkcs11go.h`, 32 or 64 bits depending on the target). -/
def CK_ULONG (w : Nat) (x : Int) : Nat := (x % 2 ^ w).toNat

/-- The conversion `C.int(x)` of an unsigned value: the low 32 bits, read as
a two's complement number. -/
def C_int (x : Nat) : Int :=
  if x % 2 ^ 32 < 2 ^ 31 then ((x % 2 ^ 32 : Nat) : Int) else ((x % 2 ^ 32 : Nat) : Int) - 2 ^ 32

/-- The cgo helper `C.GoBytes(ptr, n)`: a fresh Go slice holding the `n`
bytes at `ptr`. A negative `n` panics, `n = 0` reads nothing, and reading
through a pointer with no live block, or past the end of the block, is a
crash (`none`). -/
def GoBytes (h : Heap) (ptr : Ptr) (n : Int) : Option (List Byte) :=
  if n < 0 then none
  else if n = 0 then some []
  else
    match h.lookup ptr with
    | none => none
    | some b => if n.toNat ≤ b.length then some (b.take n.toNat) else none

/-- Go `copy(dst, src)`: the new contents of `dst`. -/
def goCopy (dst src : List Byte) : List Byte :=
  src.take dst.length ++ dst.drop src.length

/-- Modelled from the spec: the fixed native GCM layout, with the fields
`params.go` assigns. The struct is declared in the PKCS#11 header
`pkcs11go.h`. A C struct literal zeroes the fields it does not name. -/
structure CK_GCM_PARAMS where
  pIv : Ptr := 0
  ulIvLen : Nat := 0
  ulIvBits : Nat := 0
  pAAD : Ptr := 0
  ulAADLen : Nat := 0
  ulTagBits : Nat := 0
  deriving DecidableEq

/-- The struct `GCMParams`. The embedded `arena` and the pointer `params`
are nil until the parameter is realized. -/
structure GCMParams where
  arena : arena
  params : Option CK_GCM_PARAMS
  iv : Slice Byte
  aad : Slice Byte
  tagSize : Int
  deriving DecidableEq

/-- The constructor `NewGCMParams`. -/
def NewGCMParams (iv aad : Slice Byte) (tagSize : Int) : GCMParams :=
  { arena := none, params := none, iv := iv, aad := aad, tagSize := tagSize }

/-- The function `cGCMParams`, for a `CK_ULONG` of `w` bits. It returns the
realized structure (standing for its serialized bytes), the updated
`GCMParams` and the updated foreign memory. -/
def cGCMParams (w : Nat) (p : GCMParams) (h : Heap) : CK_GCM_PARAMS × GCMParams × Heap :=
  let params : CK_GCM_PARAMS := { ulTagBits := CK_ULONG w p.tagSize }
  let arena : arena := none
  let s1 : CK_GCM_PARAMS × pkcs11.arena × Heap :=
    if Slice.len p.iv > 0 then
      let r := arena.Allocate p.iv h
      ({ params with pIv := r.1.1, ulIvLen := r.1.2, ulIvBits := (r.1.2 * 8) % 2 ^ w },
        r.2.1, r.2.2)
    else (params, arena, h)
  let s2 : CK_GCM_PARAMS × pkcs11.arena × Heap :=
    if Slice.len p.aad > 0 then
      let r := s1.2.1.Allocate p.aad s1.2.2
      ({ s1.1 with pAAD := r.1.1, ulAADLen := r.1.2 }, r.2.1, r.2.2)
    else s1
  (s2.1, { p with arena := s2.2.1, params := some s2.1 }, s2.2.2)

/-- The method `GCMParams.IV` on a possibly nil receiver. The outer `none`
is a crash inside `C.GoBytes`; `some none` is the nil slice. -/
def GCMParams.IV (p : Option GCMParams) (h : Heap) : Option (Slice Byte) :=
  match p with
  | none => some none
  | some q =>
    match q.params with
    | none => some none
    | some params =>
      (GoBytes h params.pIv (C_int params.ulIvLen)).map fun newIv =>
        some (goCopy (List.replicate newIv.length 0) newIv)

/-- The method `GCMParams.Free` on a possibly nil receiver. -/
def GCMParams.Free (p : Option GCMParams) (h : Heap) : Option GCMParams × Heap :=
  match p with
  | none => (none, h)
  | some q =>
    if q.arena = none then (some q, h)
    else
      let r := q.arena.Free h
      let q1 := { q with arena := r.1 }
      let q2 := { q1 with params := none }
      (some { q2 with arena := none }, r.2)

/-- One use of the parameter in a mechanism initialisation: `cGCMParams`
run on the parameter, keeping the parameter and the foreign memory. -/
def realize (w : Nat) (s : GCMParams × Heap) : GCMParams × Heap :=
  ((cGCMParams w s.1 s.2).2.1, (cGCMParams w s.1 s.2).2.2)

end pkcs11

/-! ## Two threads calling `Sign` on one session -/

namespace p11

open pkcs11

/-- One call `priv.Sign(mechanism, message)` issued by a thread. -/
structure SignCall (σ : Type) where
  priv : PrivateKey σ
  mechanism : Mechanism
  message : Slice Byte

/-- Where a thread stands inside `PrivateKey.Sign`: before `s.Lock()`, holding
the mutex before `SignInit`, after a successful `SignInit` and before `Sign`,
with the return values set and the deferred `s.Unlock()` still to run, and
returned. -/
inductive SignPc where
  | start
  | locked
  | inited
  | returning (ret : Slice Byte × error)
  | done (ret : Slice Byte × error)
  deriving DecidableEq

/-- One step of a thread through the body of `PrivateKey.Sign`: each step is
one mutex operation or one native call, run through the same `Lock`,
`Unlock` and `World.call` as the method itself. `none` means the thread
cannot move: it waits for the mutex, or it has returned. -/
def SignCall.step {σ : Type} (c : SignCall σ) (pc : SignPc) (w : World σ) :
    Option (SignPc × World σ) :=
  let s := c.priv.Session
  match pc with
  | SignPc.start => (s.Lock w).map fun w1 => (SignPc.locked, w1)
  | SignPc.locked =>
    let r1 := w.call (Event.SignInit s.Handle (some [c.mechanism]) c.priv.ObjectHandle)
      (s.Ctx.SignInit s.Handle (some [c.mechanism]) c.priv.ObjectHandle)
    let err := r1.1
    if err ≠ none then
      some (SignPc.returning (none, err), r1.2)
    else
      some (SignPc.inited, r1.2)
  | SignPc.inited =>
    let r2 := w.call (Event.Sign s.Handle c.message) (s.Ctx.Sign s.Handle c.message)
    let out := r2.1.1
    let err := r2.1.2
    if err ≠ none then
      some (SignPc.returning (none, err), r2.2)
    else
      some (SignPc.returning (out, none), r2.2)
  | SignPc.returning ret => (s.Unlock w).map fun w1 => (SignPc.done ret, w1)
  | SignPc.done _ => none

/-- A thread running alone until it returns, for at most `n` steps. -/
def SignCall.finish {σ : Type} (c : SignCall σ) :
    Nat → SignPc → World σ → Option ((Slice Byte × error) × World σ)
  | _, SignPc.done ret, w => some (ret, w)
  | 0, _, _ => none
  | n + 1, pc, w => (c.step pc w).bind fun r => c.finish n r.1 r.2

/-- The number of steps a thread has left at most. -/
def SignPc.left : SignPc → Nat
  | SignPc.start => 4
  | SignPc.locked => 3
  | SignPc.inited => 2
  | SignPc.returning _ => 1
  | SignPc.done _ => 0

/-- The rest of a call, run alone from where the thread stands. -/
def SignCall.rest {σ : Type} (c : SignCall σ) (pc : SignPc) (w : World σ) :
    Option ((Slice Byte × error) × World σ) :=
  c.finish pc.left pc w

/-- A thread inside the critical section: it holds the mutex. -/
def SignPc.crit : SignPc → Bool
  | SignPc.locked => true
  | SignPc.inited => true
  | SignPc.returning _ => true
  | _ => false

/-- One step of the pair of threads: `true` lets the thread of `cA` move,
`false` the thread of `cB`. Both act on the one world of their session. -/
def schedStep {σ : Type} (cA cB : SignCall σ) (t : Bool)
    (st : SignPc × SignPc × World σ) : Option (SignPc × SignPc × World σ) :=
  if t then (cA.step st.1 st.2.2).map fun r => (r.1, st.2.1, r.2)
  else (cB.step st.2.1 st.2.2).map fun r => (st.1, r.1, r.2)

/-- A schedule, the order in which the two threads move, run from a state.
`none` means the schedule asks a thread to move that cannot: no execution
follows that schedule. -/
def runSchedule {σ : Type} (cA cB : SignCall σ) :
    List Bool → SignPc × SignPc × World σ → Option (SignPc × SignPc × World σ)
  | [], st => some st
  | t :: ts, st => (schedStep cA cB t st).bind (runSchedule cA cB ts)

/-- The mutex discipline of a state of the pair: the mutex is held exactly
when a thread is in the critical section, and at most one thread is. -/
def Disciplined {σ : Type} (a b : SignPc) (w : World σ) : Prop :=
  w.locked = (a.crit || b.crit) ∧ (a.crit && b.crit) = false

/-- The outcome of the pair equals one call run to the end and then the
other, in one of the two orders. -/
def Serial {σ : Type} (c1 c2 : SignCall σ) (a b : SignPc) (w : World σ)
    (r1 r2 : Slice Byte × error) (w' : World σ) : Prop :=
  (∃ x, c1.rest a w = some (r1, x) ∧ c2.rest b x = some (r2, w')) ∨
  (∃ x, c2.rest b w = some (r2, x) ∧ c1.rest a x = some (r1, w'))

end p11

/-! ## Fixtures: a session stub with fixed outputs -/

namespace p11

open pkcs11

/-- A boundary stub over a trivial device. `SignInit` succeeds and `Sign`
returns the configured signature; `DecryptInit` succeeds and `Decrypt` fails
with status `5` while handing back one byte; `VerifyInit` and `Verify`
succeed; `EncryptInit` fails with status `5`; `GetAttributeValue` answers
with the configured reply. -/
def stubCtx (signature : Slice Byte) (reply : Slice Attribute × error) : Ctx Unit where
  GetAttributeValue := fun _ _ _ d => (reply, d)
  DecryptInit := fun _ _ _ d => (none, d)
  Decrypt := fun _ _ d => ((some [0], some (GoError.Error 5)), d)
  SignInit := fun _ _ _ d => (none, d)
  Sign := fun _ _ d => ((signature, none), d)
  VerifyInit := fun _ _ _ d => (none, d)
  Verify := fun _ _ _ d => (none, d)
  EncryptInit := fun _ _ _ d => (some (GoError.Error 5), d)
  Encrypt := fun _ _ d => ((some [0], none), d)

/-- The bytes of "hello". -/
def hello : Slice Byte := some [104, 101, 108, 108, 111]

/-- A key with handle `3` on session `7` of the stub. -/
def stubKey (signature : Slice Byte) (reply : Slice Attribute × error) : Object Unit :=
  { Session := { Ctx := stubCtx signature reply, Handle := 7 }, ObjectHandle := 3 }

/-- A world with a free mutex and an empty trace. -/
def idle : World Unit := { dev := (), locked := false, trace := [] }

end p11

/-! ## Session objects and key verbs -/

namespace p11

open pkcs11

/-- Running `Object.Attribute` with the mutex free: the outcome in closed form. -/
lemma Attribute_run {σ : Type} (o : Object σ) (attributeType : Nat) (w : World σ)
    (hfree : w.locked = false) (attrs : Slice pkcs11.Attribute) (err : error)
    (hrep : (o.Session.Ctx.GetAttributeValue o.Session.Handle o.ObjectHandle
      (some [NewAttribute attributeType none]) w.dev).1 = (attrs, err)) :
    (o.Attribute attributeType w).map Prod.fst =
      if err = some (GoError.Error CKR_ATTRIBUTE_TYPE_INVALID) then some (none, none)
      else if err ≠ none then some (none, err)
      else if Slice.len attrs = 0 then
        some (none, some (GoError.errorString "attribute not found"))
      else if Slice.len attrs > 1 then
        some (none, some (GoError.errorString "too many attributes found"))
      else (Slice.index attrs 0).map fun a => (a.Value, none) := by
  have h1 : (o.Session.Ctx.GetAttributeValue o.Session.Handle o.ObjectHandle
      (some [NewAttribute attributeType none]) w.dev).1.1 = attrs := by rw [hrep]
  have h2 : (o.Session.Ctx.GetAttributeValue o.Session.Handle o.ObjectHandle
      (some [NewAttribute attributeType none]) w.dev).1.2 = err := by rw [hrep]
  by_cases c1 : err = some (GoError.Error CKR_ATTRIBUTE_TYPE_INVALID)
  · simp [Object.Attribute, SessionImpl.withLock, SessionImpl.Lock, SessionImpl.Unlock,
      World.call, hfree, h1, h2, c1, bind, Option.bind]
  · by_cases c2 : err = none
    · by_cases c3 : Slice.len attrs = 0
      · simp [Object.Attribute, SessionImpl.withLock, SessionImpl.Lock, SessionImpl.Unlock,
          World.call, hfree, h1, h2, c2, c3, bind, Option.bind]
      · by_cases c4 : Slice.len attrs > 1
        · simp [Object.Attribute, SessionImpl.withLock, SessionImpl.Lock, SessionImpl.Unlock,
            World.call, hfree, h1, h2, c2, c3, c4, bind, Option.bind]
        · have c5 : ¬ 1 < Slice.len attrs := c4
          cases hidx : Slice.index attrs 0 <;>
          simp [Object.Attribute, SessionImpl.withLock, SessionImpl.Lock, SessionImpl.Unlock,
            World.call, hfree, h1, h2, c2, c3, c5, hidx, bind, Option.bind]
    · simp [Object.Attribute, SessionImpl.withLock, SessionImpl.Lock, SessionImpl.Unlock,
        World.call, hfree, h1, h2, c1, c2, bind, Option.bind]

/-- C1: when the boundary's `GetAttributeValue` fails with the status
`CKR_ATTRIBUTE_TYPE_INVALID`, `Object.Attribute` returns a nil value and a nil
error, whatever attribute list came with the status. -/
theorem Attribute_type_invalid_is_absent {σ : Type} (o : Object σ) (attributeType : Nat)
    (w : World σ) (hfree : w.locked = false) (attrs : Slice pkcs11.Attribute)
    (hrep : (o.Session.Ctx.GetAttributeValue o.Session.Handle o.ObjectHandle
      (some [NewAttribute attributeType none]) w.dev).1
        = (attrs, some (GoError.Error CKR_ATTRIBUTE_TYPE_INVALID))) :
    (o.Attribute attributeType w).map Prod.fst = some (none, none) := by
  rw [Attribute_run o attributeType w hfree attrs _ hrep]
  simp

/-- Witness of C1: the stub answers two attributes together with the status;
the read still yields nil and nil. -/
theorem Attribute_type_invalid_is_absent_witness :
    idle.locked = false ∧
    ((stubKey none (some [NewAttribute 1 (some [9]), NewAttribute 2 (some [8])],
        some (GoError.Error CKR_ATTRIBUTE_TYPE_INVALID))).Attribute 1 idle).map Prod.fst
      = some (none, none) :=
  ⟨rfl, Attribute_type_invalid_is_absent _ 1 idle rfl _ rfl⟩

/-- C2: when the boundary's `GetAttributeValue` succeeds with `n` attributes,
`Object.Attribute` returns the value of the attribute and no error if
`n = 1`, and an error with a nil value if `n = 0` or `n ≥ 2`. -/
theorem Attribute_exactly_one {σ : Type} (o : Object σ) (attributeType : Nat)
    (w : World σ) (hfree : w.locked = false) (attrs : Slice pkcs11.Attribute)
    (hrep : (o.Session.Ctx.GetAttributeValue o.Session.Handle o.ObjectHandle
      (some [NewAttribute attributeType none]) w.dev).1 = (attrs, none)) :
    (Slice.len attrs = 1 → ∃ a, attrs = some [a] ∧
      (o.Attribute attributeType w).map Prod.fst = some (a.Value, none)) ∧
    (Slice.len attrs = 0 → (o.Attribute attributeType w).map Prod.fst
      = some (none, some (GoError.errorString "attribute not found"))) ∧
    (2 ≤ Slice.len attrs → (o.Attribute attributeType w).map Prod.fst
      = some (none, some (GoError.errorString "too many attributes found"))) := by
  rw [Attribute_run o attributeType w hfree attrs _ hrep]
  refine ⟨?_, ?_, ?_⟩
  · intro h
    rcases attrs with _ | l
    · simp [Slice.len] at h
    · match l, h with
      | [a], _ => exact ⟨a, rfl, by simp [Slice.len, Slice.index]⟩
  · intro h
    simp [h]
  · intro h
    have h0 : ¬ Slice.len attrs = 0 := by omega
    have h1 : Slice.len attrs > 1 := by omega
    simp [h0, h1]

/-- Witness of C2: one attribute in the reply gives its value, no attribute
gives "attribute not found" and two give "too many attributes found". -/
theorem Attribute_exactly_one_witness :
    ((stubKey none (some [NewAttribute 1 (some [9])], none)).Attribute 1 idle).map Prod.fst
      = some (some [9], none) ∧
    ((stubKey none (some [], none)).Attribute 1 idle).map Prod.fst
      = some (none, some (GoError.errorString "attribute not found")) ∧
    ((stubKey none (some [NewAttribute 1 (some [9]), NewAttribute 1 (some [8])],
        none)).Attribute 1 idle).map Prod.fst
      = some (none, some (GoError.errorString "too many attributes found")) := by
  refine ⟨?_, ?_, ?_⟩
  · obtain ⟨a, ha, hv⟩ := (Attribute_exactly_one
      (stubKey none (some [NewAttribute 1 (some [9])], none)) 1 idle rfl _ rfl).1 rfl
    cases ha
    exact hv
  · exact (Attribute_exactly_one (stubKey none (some [], none)) 1 idle rfl _ rfl).2.1 rfl
  · exact (Attribute_exactly_one (stubKey none
      (some [NewAttribute 1 (some [9]), NewAttribute 1 (some [8])], none)) 1 idle rfl _ rfl).2.2
      (by decide)

/-- Running `PrivateKey.Decrypt` with the mutex free: result and final world. -/
lemma Decrypt_run {σ : Type} (k : Object σ) (m : Mechanism) (input : Slice Byte)
    (w : World σ) (hfree : w.locked = false) (ie : error) (d1 : σ)
    (hinit : k.Session.Ctx.DecryptInit k.Session.Handle (some [m]) k.ObjectHandle w.dev
      = (ie, d1))
    (out : Slice Byte) (oe : error) (d2 : σ)
    (hop : k.Session.Ctx.Decrypt k.Session.Handle input d1 = ((out, oe), d2)) :
    PrivateKey.Decrypt k m input w =
      if ie ≠ none then
        some ((none, ie), { dev := d1, locked := false, trace := w.trace ++
          [Event.Lock, Event.DecryptInit k.Session.Handle (some [m]) k.ObjectHandle,
            Event.Unlock] })
      else
        some ((if oe ≠ none then (none, oe) else (out, none)),
          { dev := d2, locked := false, trace := w.trace ++
            [Event.Lock, Event.DecryptInit k.Session.Handle (some [m]) k.ObjectHandle,
              Event.Decrypt k.Session.Handle input, Event.Unlock] }) := by
  by_cases c1 : ie = none <;> by_cases c2 : oe = none <;>
    simp [PrivateKey.Decrypt, SessionImpl.withLock, SessionImpl.Lock, SessionImpl.Unlock,
      World.call, hfree, hinit, hop, c1, c2, bind, Option.bind]

/-- Running `PrivateKey.Sign` with the mutex free: result and final world. -/
lemma Sign_run {σ : Type} (k : Object σ) (m : Mechanism) (input : Slice Byte)
    (w : World σ) (hfree : w.locked = false) (ie : error) (d1 : σ)
    (hinit : k.Session.Ctx.SignInit k.Session.Handle (some [m]) k.ObjectHandle w.dev
      = (ie, d1))
    (out : Slice Byte) (oe : error) (d2 : σ)
    (hop : k.Session.Ctx.Sign k.Session.Handle input d1 = ((out, oe), d2)) :
    PrivateKey.Sign k m input w =
      if ie ≠ none then
        some ((none, ie), { dev := d1, locked := false, trace := w.trace ++
          [Event.Lock, Event.SignInit k.Session.Handle (some [m]) k.ObjectHandle,
            Event.Unlock] })
      else
        some ((if oe ≠ none then (none, oe) else (out, none)),
          { dev := d2, locked := false, trace := w.trace ++
            [Event.Lock, Event.SignInit k.Session.Handle (some [m]) k.ObjectHandle,
              Event.Sign k.Session.Handle input, Event.Unlock] }) := by
  by_cases c1 : ie = none <;> by_cases c2 : oe = none <;>
    simp [PrivateKey.Sign, SessionImpl.withLock, SessionImpl.Lock, SessionImpl.Unlock,
      World.call, hfree, hinit, hop, c1, c2, bind, Option.bind]

/-- Running `PublicKey.Verify` with the mutex free: result and final world. -/
lemma Verify_run {σ : Type} (k : Object σ) (m : Mechanism) (input signature : Slice Byte)
    (w : World σ) (hfree : w.locked = false) (ie : error) (d1 : σ)
    (hinit : k.Session.Ctx.VerifyInit k.Session.Handle (some [m]) k.ObjectHandle w.dev
      = (ie, d1))
    (oe : error) (d2 : σ)
    (hop : k.Session.Ctx.Verify k.Session.Handle input signature d1 = (oe, d2)) :
    PublicKey.Verify k m input signature w =
      if ie ≠ none then
        some (ie, { dev := d1, locked := false, trace := w.trace ++
          [Event.Lock, Event.VerifyInit k.Session.Handle (some [m]) k.ObjectHandle,
            Event.Unlock] })
      else
        some (oe, { dev := d2, locked := false, trace := w.trace ++
            [Event.Lock, Event.VerifyInit k.Session.Handle (some [m]) k.ObjectHandle,
              Event.Verify k.Session.Handle input signature, Event.Unlock] }) := by
  by_cases c1 : ie = none <;> by_cases c2 : oe = none <;>
    simp [PublicKey.Verify, SessionImpl.withLock, SessionImpl.Lock, SessionImpl.Unlock,
      World.call, hfree, hinit, hop, c1, c2, bind, Option.bind]

/-- Running `PublicKey.Encrypt` with the mutex free: result and final world. -/
lemma Encrypt_run {σ : Type} (k : Object σ) (m : Mechanism) (input : Slice Byte)
    (w : World σ) (hfree : w.locked = false) (ie : error) (d1 : σ)
    (hinit : k.Session.Ctx.EncryptInit k.Session.Handle (some [m]) k.ObjectHandle w.dev
      = (ie, d1))
    (out : Slice Byte) (oe : error) (d2 : σ)
    (hop : k.Session.Ctx.Encrypt k.Session.Handle input d1 = ((out, oe), d2)) :
    PublicKey.Encrypt k m input w =
      if ie ≠ none then
        some ((none, ie), { dev := d1, locked := false, trace := w.trace ++
          [Event.Lock, Event.EncryptInit k.Session.Handle (some [m]) k.ObjectHandle,
            Event.Unlock] })
      else
        some ((if oe ≠ none then (none, oe) else (out, none)),
          { dev := d2, locked := false, trace := w.trace ++
            [Event.Lock, Event.EncryptInit k.Session.Handle (some [m]) k.ObjectHandle,
              Event.Encrypt k.Session.Handle input, Event.Unlock] }) := by
  by_cases c1 : ie = none <;> by_cases c2 : oe = none <;>
    simp [PublicKey.Encrypt, SessionImpl.withLock, SessionImpl.Lock, SessionImpl.Unlock,
      World.call, hfree, hinit, hop, c1, c2, bind, Option.bind]

/-- The three outcomes of a verb that returns an output and an error. -/
lemma outcome_cases (ie oe : error) (out : Slice Byte) (ret : Option (Slice Byte × error))
    (h : ret = if ie ≠ none then some (none, ie)
      else some (if oe ≠ none then (none, oe) else (out, none))) :
    (ie ≠ none → ret = some (none, ie)) ∧
    (ie = none → oe ≠ none → ret = some (none, oe)) ∧
    (ie = none → oe = none → ret = some (out, none)) ∧
    (∀ r, ret = some r → r.2 ≠ none → r.1 = none) := by
  subst h
  refine ⟨fun h => by simp [h], fun h1 h2 => by simp [h1, h2], fun h1 h2 => by simp [h1, h2], ?_⟩
  intro r hr hne
  by_cases c1 : ie = none <;> by_cases c2 : oe = none <;> simp [c1, c2] at hr <;>
    subst hr <;> simp_all

/-- C3: each of `PrivateKey.Decrypt`, `PrivateKey.Sign`, `PublicKey.Verify` and
`PublicKey.Encrypt` returns the init error and no output when the init call
fails, otherwise the operate error and no output when the operate call
fails, otherwise the operate call's output and no error; an error never
comes with an output. -/
theorem key_verbs_result {σ : Type} (k : Object σ) (m : Mechanism)
    (input signature : Slice Byte) (w : World σ) (hfree : w.locked = false) :
    (∀ ie d1 out oe d2,
      k.Session.Ctx.DecryptInit k.Session.Handle (some [m]) k.ObjectHandle w.dev = (ie, d1) →
      k.Session.Ctx.Decrypt k.Session.Handle input d1 = ((out, oe), d2) →
      (ie ≠ none → (PrivateKey.Decrypt k m input w).map Prod.fst = some (none, ie)) ∧
      (ie = none → oe ≠ none →
        (PrivateKey.Decrypt k m input w).map Prod.fst = some (none, oe)) ∧
      (ie = none → oe = none →
        (PrivateKey.Decrypt k m input w).map Prod.fst = some (out, none)) ∧
      (∀ r, (PrivateKey.Decrypt k m input w).map Prod.fst = some r → r.2 ≠ none →
        r.1 = none)) ∧
    (∀ ie d1 out oe d2,
      k.Session.Ctx.SignInit k.Session.Handle (some [m]) k.ObjectHandle w.dev = (ie, d1) →
      k.Session.Ctx.Sign k.Session.Handle input d1 = ((out, oe), d2) →
      (ie ≠ none → (PrivateKey.Sign k m input w).map Prod.fst = some (none, ie)) ∧
      (ie = none → oe ≠ none →
        (PrivateKey.Sign k m input w).map Prod.fst = some (none, oe)) ∧
      (ie = none → oe = none →
        (PrivateKey.Sign k m input w).map Prod.fst = some (out, none)) ∧
      (∀ r, (PrivateKey.Sign k m input w).map Prod.fst = some r → r.2 ≠ none →
        r.1 = none)) ∧
    (∀ ie d1 oe d2,
      k.Session.Ctx.VerifyInit k.Session.Handle (some [m]) k.ObjectHandle w.dev = (ie, d1) →
      k.Session.Ctx.Verify k.Session.Handle input signature d1 = (oe, d2) →
      (ie ≠ none → (PublicKey.Verify k m input signature w).map Prod.fst = some ie) ∧
      (ie = none → oe ≠ none →
        (PublicKey.Verify k m input signature w).map Prod.fst = some oe) ∧
      (ie = none → oe = none →
        (PublicKey.Verify k m input signature w).map Prod.fst = some none)) ∧
    (∀ ie d1 out oe d2,
      k.Session.Ctx.EncryptInit k.Session.Handle (some [m]) k.ObjectHandle w.dev = (ie, d1) →
      k.Session.Ctx.Encrypt k.Session.Handle input d1 = ((out, oe), d2) →
      (ie ≠ none → (PublicKey.Encrypt k m input w).map Prod.fst = some (none, ie)) ∧
      (ie = none → oe ≠ none →
        (PublicKey.Encrypt k m input w).map Prod.fst = some (none, oe)) ∧
      (ie = none → oe = none →
        (PublicKey.Encrypt k m input w).map Prod.fst = some (out, none)) ∧
      (∀ r, (PublicKey.Encrypt k m input w).map Prod.fst = some r → r.2 ≠ none →
        r.1 = none)) := by
  refine ⟨?_, ?_, ?_, ?_⟩
  · intro ie d1 out oe d2 hinit hop
    apply outcome_cases ie oe out
    rw [Decrypt_run k m input w hfree ie d1 hinit out oe d2 hop]
    by_cases c : ie = none <;> simp [c]
  · intro ie d1 out oe d2 hinit hop
    apply outcome_cases ie oe out
    rw [Sign_run k m input w hfree ie d1 hinit out oe d2 hop]
    by_cases c : ie = none <;> simp [c]
  · intro ie d1 oe d2 hinit hop
    rw [Verify_run k m input signature w hfree ie d1 hinit oe d2 hop]
    refine ⟨fun h => by simp [h], fun h _ => by simp [h], fun h1 h2 => by simp [h1, h2]⟩
  · intro ie d1 out oe d2 hinit hop
    apply outcome_cases ie oe out
    rw [Encrypt_run k m input w hfree ie d1 hinit out oe d2 hop]
    by_cases c : ie = none <;> simp [c]

/-- Witness of C3 on the stub: `Sign` returns the configured signature,
`Decrypt` (whose operate call fails while handing back a byte) returns the
operate error alone, `Verify` returns nil, and `Encrypt` (whose init fails)
returns the init error alone. -/
theorem key_verbs_result_witness :
    idle.locked = false ∧
    (PrivateKey.Sign (stubKey (some [1, 2, 3]) (none, none)) ⟨1, none⟩ hello idle).map Prod.fst
      = some (some [1, 2, 3], none) ∧
    (PrivateKey.Decrypt (stubKey (some [1, 2, 3]) (none, none)) ⟨1, none⟩ hello idle).map
      Prod.fst = some (none, some (GoError.Error 5)) ∧
    (PublicKey.Verify (stubKey (some [1, 2, 3]) (none, none)) ⟨1, none⟩ hello (some [4])
      idle).map Prod.fst = some none ∧
    (PublicKey.Encrypt (stubKey (some [1, 2, 3]) (none, none)) ⟨1, none⟩ hello idle).map
      Prod.fst = some (none, some (GoError.Error 5)) := by
  have h := key_verbs_result (stubKey (some [1, 2, 3]) (none, none)) ⟨1, none⟩ hello
    (some [4]) idle rfl
  exact ⟨rfl,
    (h.2.1 none () (some [1, 2, 3]) none () rfl rfl).2.2.1 rfl rfl,
    (h.1 none () (some [0]) (some (GoError.Error 5)) () rfl rfl).2.1 rfl (by simp),
    (h.2.2.1 none () none () rfl rfl).2.2 rfl rfl,
    (h.2.2.2 (some (GoError.Error 5)) () (some [0]) none () rfl rfl).1 (by simp)⟩

/-- C4: the events a key verb issues against the session are
`Lock, init, operate, Unlock` when the init call succeeds and
`Lock, init, Unlock` when it fails, and the mutex is free again afterwards. -/
theorem key_verbs_events {σ : Type} (k : Object σ) (m : Mechanism)
    (input signature : Slice Byte) (w : World σ) (hfree : w.locked = false) :
    (∀ ie d1,
      k.Session.Ctx.DecryptInit k.Session.Handle (some [m]) k.ObjectHandle w.dev = (ie, d1) →
      (ie = none → (PrivateKey.Decrypt k m input w).map (fun r => (r.2.trace, r.2.locked)) =
        some (w.trace ++ [Event.Lock,
          Event.DecryptInit k.Session.Handle (some [m]) k.ObjectHandle,
          Event.Decrypt k.Session.Handle input, Event.Unlock], false)) ∧
      (ie ≠ none → (PrivateKey.Decrypt k m input w).map (fun r => (r.2.trace, r.2.locked)) =
        some (w.trace ++ [Event.Lock,
          Event.DecryptInit k.Session.Handle (some [m]) k.ObjectHandle,
          Event.Unlock], false))) ∧
    (∀ ie d1,
      k.Session.Ctx.SignInit k.Session.Handle (some [m]) k.ObjectHandle w.dev = (ie, d1) →
      (ie = none → (PrivateKey.Sign k m input w).map (fun r => (r.2.trace, r.2.locked)) =
        some (w.trace ++ [Event.Lock,
          Event.SignInit k.Session.Handle (some [m]) k.ObjectHandle,
          Event.Sign k.Session.Handle input, Event.Unlock], false)) ∧
      (ie ≠ none → (PrivateKey.Sign k m input w).map (fun r => (r.2.trace, r.2.locked)) =
        some (w.trace ++ [Event.Lock,
          Event.SignInit k.Session.Handle (some [m]) k.ObjectHandle,
          Event.Unlock], false))) ∧
    (∀ ie d1,
      k.Session.Ctx.VerifyInit k.Session.Handle (some [m]) k.ObjectHandle w.dev = (ie, d1) →
      (ie = none →
        (PublicKey.Verify k m input signature w).map (fun r => (r.2.trace, r.2.locked)) =
        some (w.trace ++ [Event.Lock,
          Event.VerifyInit k.Session.Handle (some [m]) k.ObjectHandle,
          Event.Verify k.Session.Handle input signature, Event.Unlock], false)) ∧
      (ie ≠ none →
        (PublicKey.Verify k m input signature w).map (fun r => (r.2.trace, r.2.locked)) =
        some (w.trace ++ [Event.Lock,
          Event.VerifyInit k.Session.Handle (some [m]) k.ObjectHandle,
          Event.Unlock], false))) ∧
    (∀ ie d1,
      k.Session.Ctx.EncryptInit k.Session.Handle (some [m]) k.ObjectHandle w.dev = (ie, d1) →
      (ie = none → (PublicKey.Encrypt k m input w).map (fun r => (r.2.trace, r.2.locked)) =
        some (w.trace ++ [Event.Lock,
          Event.EncryptInit k.Session.Handle (some [m]) k.ObjectHandle,
          Event.Encrypt k.Session.Handle input, Event.Unlock], false)) ∧
      (ie ≠ none → (PublicKey.Encrypt k m input w).map (fun r => (r.2.trace, r.2.locked)) =
        some (w.trace ++ [Event.Lock,
          Event.EncryptInit k.Session.Handle (some [m]) k.ObjectHandle,
          Event.Unlock], false))) := by
  refine ⟨?_, ?_, ?_, ?_⟩
  · intro ie d1 hinit
    rcases hop : k.Session.Ctx.Decrypt k.Session.Handle input d1 with ⟨⟨out, oe⟩, d2⟩
    rw [Decrypt_run k m input w hfree ie d1 hinit out oe d2 hop]
    exact ⟨fun h => by simp [h], fun h => by simp [h]⟩
  · intro ie d1 hinit
    rcases hop : k.Session.Ctx.Sign k.Session.Handle input d1 with ⟨⟨out, oe⟩, d2⟩
    rw [Sign_run k m input w hfree ie d1 hinit out oe d2 hop]
    exact ⟨fun h => by simp [h], fun h => by simp [h]⟩
  · intro ie d1 hinit
    rcases hop : k.Session.Ctx.Verify k.Session.Handle input signature d1 with ⟨oe, d2⟩
    rw [Verify_run k m input signature w hfree ie d1 hinit oe d2 hop]
    exact ⟨fun h => by simp [h], fun h => by simp [h]⟩
  · intro ie d1 hinit
    rcases hop : k.Session.Ctx.Encrypt k.Session.Handle input d1 with ⟨⟨out, oe⟩, d2⟩
    rw [Encrypt_run k m input w hfree ie d1 hinit out oe d2 hop]
    exact ⟨fun h => by simp [h], fun h => by simp [h]⟩

/-- Witness of C4, the end-to-end scenario: `Sign` of "hello" on a stub whose
init and operate succeed issues `Lock, SignInit, Sign, Unlock`; `Encrypt`,
whose init fails on the stub, issues `Lock, EncryptInit, Unlock`. -/
theorem key_verbs_events_witness :
    idle.locked = false ∧
    (PrivateKey.Sign (stubKey (some [1, 2, 3]) (none, none)) ⟨1, none⟩ hello idle).map
        (fun r => (r.2.trace, r.2.locked))
      = some ([Event.Lock, Event.SignInit 7 (some [⟨1, none⟩]) 3, Event.Sign 7 hello,
          Event.Unlock], false) ∧
    (PublicKey.Encrypt (stubKey (some [1, 2, 3]) (none, none)) ⟨1, none⟩ hello idle).map
        (fun r => (r.2.trace, r.2.locked))
      = some ([Event.Lock, Event.EncryptInit 7 (some [⟨1, none⟩]) 3, Event.Unlock], false) := by
  have h := key_verbs_events (stubKey (some [1, 2, 3]) (none, none)) ⟨1, none⟩ hello
    (some [4]) idle rfl
  exact ⟨rfl, (h.2.1 none () rfl).1 rfl, (h.2.2.2 (some (GoError.Error 5)) () rfl).2 (by simp)⟩

end p11

/-! ## GCM parameters -/

namespace pkcs11

/-- The length of a non-nil slice. -/
lemma Slice.len_some {α : Type} (l : List α) : Slice.len (some l) = l.length := rfl

/-- The length of the nil slice. -/
lemma Slice.len_none {α : Type} : Slice.len (none : Slice α) = 0 := rfl

/-- Every address in a list is below one plus the maximum of the list. -/
lemma lt_foldr_max_succ (l : List Nat) (x : Nat) (hx : x ∈ l) : x < l.foldr max 0 + 1 := by
  induction l with
  | nil => cases hx
  | cons a t ih =>
    simp only [List.foldr_cons]
    rcases List.mem_cons.mp hx with rfl | hmem
    · omega
    · have := ih hmem
      omega

/-- A fresh address is not null. -/
lemma Heap.fresh_ne_zero (h : Heap) : h.fresh ≠ 0 := by
  simp [Heap.fresh]

/-- Every live block lies below the fresh address. -/
lemma Heap.live_lt_fresh (h : Heap) (b : Ptr × List Byte) (hb : b ∈ h.live) :
    b.1 < h.fresh := by
  apply lt_foldr_max_succ
  exact List.mem_append_left _ (List.mem_map_of_mem Prod.fst hb)

/-- Every released address lies below the fresh address. -/
lemma Heap.released_lt_fresh (h : Heap) (q : Ptr) (hq : q ∈ h.released) : q < h.fresh := by
  apply lt_foldr_max_succ
  exact List.mem_append_right _ hq

/-- The block just allocated holds the bytes it was given. -/
lemma Heap.lookup_alloc_self (h : Heap) (bytes : List Byte) :
    (h.alloc bytes).2.lookup (h.alloc bytes).1 = some bytes := by
  have hnone : h.live.find? (fun b => decide (b.1 = h.fresh)) = none := by
    rw [List.find?_eq_none]
    intro b hb
    have hlt := h.live_lt_fresh b hb
    have hne : b.1 ≠ h.fresh := Nat.ne_of_lt hlt
    simpa using hne
  simp [Heap.lookup, Heap.alloc, List.find?_append, hnone]

/-- An allocation leaves the blocks that are already live as they are. -/
lemma Heap.lookup_alloc_of_lookup (h : Heap) (bytes c : List Byte) (p : Ptr)
    (hp : h.lookup p = some c) : (h.alloc bytes).2.lookup p = some c := by
  simp only [Heap.lookup, Option.map_eq_some'] at hp
  obtain ⟨b, hb, rfl⟩ := hp
  simp [Heap.lookup, Heap.alloc, List.find?_append, hb]

/-- After a store into a live block, the block holds the stored bytes. -/
lemma Heap.lookup_store (h : Heap) (p : Ptr) (c J : List Byte)
    (hp : h.lookup p = some c) : (h.store p J).lookup p = some J := by
  obtain ⟨live, released⟩ := h
  simp only [Heap.lookup, Heap.store] at hp ⊢
  induction live with
  | nil => simp at hp
  | cons b t ih =>
    by_cases hb : b.1 = p
    · simp [List.find?_cons, hb]
    · simp only [List.map_cons, hb, if_false, List.find?_cons, decide_False] at hp ⊢
      exact ih hp

/-- Go `copy` into a zeroed slice of the same length yields the source. -/
lemma goCopy_replicate (l : List Byte) : goCopy (List.replicate l.length 0) l = l := by
  simp [goCopy]

/-- The conversion `C.int` keeps a length below `2^31`. -/
lemma C_int_of_lt (n : Nat) (hn : n < 2 ^ 31) : C_int n = (n : Int) := by
  have h1 : n % 2 ^ 32 = n := Nat.mod_eq_of_lt (by omega)
  unfold C_int
  rw [h1, if_pos hn]

/-- The realized structure is the one `cGCMParams` returns. -/
lemma cGCMParams_params (w : Nat) (p : GCMParams) (h : Heap) :
    (cGCMParams w p h).2.1.params = some (cGCMParams w p h).1 := by
  simp [cGCMParams]

/-- The IV fields of the realized structure for an empty IV. -/
lemma cGCMParams_iv_empty (w : Nat) (p : GCMParams) (h : Heap) (hiv : Slice.len p.iv = 0) :
    (cGCMParams w p h).1.pIv = 0 ∧ (cGCMParams w p h).1.ulIvLen = 0 := by
  by_cases ha : 0 < Slice.len p.aad <;> simp [cGCMParams, hiv, ha]

/-- The IV fields of the realized structure for a non-empty IV: the pointer
is the block allocated first, which holds the IV bytes. -/
lemma cGCMParams_iv_nonempty (w : Nat) (p : GCMParams) (h : Heap)
    (hiv : 0 < Slice.len p.iv) :
    (cGCMParams w p h).1.pIv = h.fresh ∧
    (cGCMParams w p h).1.ulIvLen = Slice.len p.iv ∧
    (cGCMParams w p h).2.2.lookup h.fresh = some (p.iv.getD []) := by
  have hlen : (p.iv.getD []).length = Slice.len p.iv := by
    cases hp : p.iv <;> simp [Slice.len]
  by_cases ha : 0 < Slice.len p.aad
  · refine ⟨by simp [cGCMParams, hiv, ha, arena.Allocate, Heap.alloc],
      by simp [cGCMParams, hiv, ha, arena.Allocate, Heap.alloc, hlen], ?_⟩
    have h1 := h.lookup_alloc_self (p.iv.getD [])
    have h2 := (h.alloc (p.iv.getD [])).2.lookup_alloc_of_lookup (p.aad.getD []) _ _ h1
    simpa [cGCMParams, hiv, ha, arena.Allocate] using h2
  · refine ⟨by simp [cGCMParams, hiv, ha, arena.Allocate, Heap.alloc],
      by simp [cGCMParams, hiv, ha, arena.Allocate, Heap.alloc, hlen], ?_⟩
    have h1 := h.lookup_alloc_self (p.iv.getD [])
    simpa [cGCMParams, hiv, ha, arena.Allocate] using h1

/-- The read-back `IV()` right after realization, in terms of `C.GoBytes`. -/
lemma IV_after_cGCMParams (w : Nat) (p : GCMParams) (h h1 : Heap) :
    GCMParams.IV (some (cGCMParams w p h).2.1) h1 =
      (GoBytes h1 (cGCMParams w p h).1.pIv (C_int (cGCMParams w p h).1.ulIvLen)).map
        fun newIv => some (goCopy (List.replicate newIv.length 0) newIv) := by
  simp only [GCMParams.IV, cGCMParams_params]

/-- C5, as amended: for an IV shorter than `2^31` bytes, `IV()` right after
realization returns the bytes of the IV, and after the block behind the
realized IV pointer is overwritten with `J` of the same length, `IV()`
returns `J`. -/
theorem IV_reads_live_memory (w : Nat) (I A : Slice Byte) (T : Int) (h : Heap)
    (hlen : Slice.len I < 2 ^ 31) :
    GCMParams.IV (some (cGCMParams w (NewGCMParams I A T) h).2.1)
        (cGCMParams w (NewGCMParams I A T) h).2.2 = some (some (I.getD [])) ∧
    ∀ J : List Byte, J.length = Slice.len I →
      GCMParams.IV (some (cGCMParams w (NewGCMParams I A T) h).2.1)
        ((cGCMParams w (NewGCMParams I A T) h).2.2.store
          (cGCMParams w (NewGCMParams I A T) h).1.pIv J) = some (some J) := by
  have hI : (I.getD []).length = Slice.len I := by cases I <;> simp [Slice.len]
  by_cases hiv : 0 < Slice.len I
  · obtain ⟨hp, hl, hlook⟩ :=
      cGCMParams_iv_nonempty w (NewGCMParams I A T) h (by simpa [NewGCMParams] using hiv)
    have hl' : (cGCMParams w (NewGCMParams I A T) h).1.ulIvLen = Slice.len I := by
      simpa [NewGCMParams] using hl
    have hlook' : (cGCMParams w (NewGCMParams I A T) h).2.2.lookup h.fresh
        = some (I.getD []) := by simpa [NewGCMParams] using hlook
    have hn0 : ¬ ((Slice.len I : Int) < 0) := by omega
    have hn1 : ¬ ((Slice.len I : Int) = 0) := by omega
    refine ⟨?_, ?_⟩
    · rw [IV_after_cGCMParams, hp, hl', C_int_of_lt _ hlen]
      simp [GoBytes, hlook', hI, hn1, goCopy_replicate]
    · intro J hJ
      rw [IV_after_cGCMParams, hp, hl', C_int_of_lt _ hlen,
        show GoBytes _ h.fresh (Slice.len I : Int) = some J from by
          simp [GoBytes, Heap.lookup_store _ _ _ J hlook', hJ, hn1]]
      simp [goCopy_replicate]
  · have h0 : Slice.len I = 0 := by omega
    obtain ⟨hp, hl⟩ :=
      cGCMParams_iv_empty w (NewGCMParams I A T) h (by simpa [NewGCMParams] using h0)
    have hnil : I.getD [] = [] := List.eq_nil_of_length_eq_zero (by rw [hI, h0])
    refine ⟨?_, ?_⟩
    · rw [IV_after_cGCMParams, hp, hl]
      simp [GoBytes, C_int, goCopy, hnil]
    · intro J hJ
      have hJ0 : J = [] := List.eq_nil_of_length_eq_zero (by rw [hJ, h0])
      rw [IV_after_cGCMParams, hp, hl]
      simp [GoBytes, C_int, goCopy, hJ0]

/-- Witness of C5: a 12-byte IV is read back, and after the device rewrites
the block, the rewritten bytes are read back. -/
theorem IV_reads_live_memory_witness :
    Slice.len (some [1, 2, 3, 4, 5, 6, 7, 8, 9, 10, 11, 12] : Slice Byte) < 2 ^ 31 ∧
    GCMParams.IV
        (some (cGCMParams 64 (NewGCMParams (some [1, 2, 3, 4, 5, 6, 7, 8, 9, 10, 11, 12])
          (some [42]) 128) Heap.empty).2.1)
        (cGCMParams 64 (NewGCMParams (some [1, 2, 3, 4, 5, 6, 7, 8, 9, 10, 11, 12])
          (some [42]) 128) Heap.empty).2.2
      = some (some [1, 2, 3, 4, 5, 6, 7, 8, 9, 10, 11, 12]) ∧
    GCMParams.IV
        (some (cGCMParams 64 (NewGCMParams (some [1, 2, 3, 4, 5, 6, 7, 8, 9, 10, 11, 12])
          (some [42]) 128) Heap.empty).2.1)
        ((cGCMParams 64 (NewGCMParams (some [1, 2, 3, 4, 5, 6, 7, 8, 9, 10, 11, 12])
          (some [42]) 128) Heap.empty).2.2.store 1 [9, 9, 9, 9, 9, 9, 9, 9, 9, 9, 9, 9])
      = some (some [9, 9, 9, 9, 9, 9, 9, 9, 9, 9, 9, 9]) :=
  ⟨by decide,
   (IV_reads_live_memory 64 (some [1, 2, 3, 4, 5, 6, 7, 8, 9, 10, 11, 12]) (some [42]) 128
      Heap.empty (by decide)).1,
   (IV_reads_live_memory 64 (some [1, 2, 3, 4, 5, 6, 7, 8, 9, 10, 11, 12]) (some [42]) 128
      Heap.empty (by decide)).2 [9, 9, 9, 9, 9, 9, 9, 9, 9, 9, 9, 9] rfl⟩

/-- An IV of exactly `2^31` bytes: the length handed to `C.GoBytes` is
`C.int(2^31) = -2^31`, and `IV()` panics. -/
lemma IV_panics_of_length (w : Nat) (l : List Byte) (A : Slice Byte) (T : Int) (h : Heap)
    (hl : l.length = 2147483648) :
    GCMParams.IV (some (cGCMParams w (NewGCMParams (some l) A T) h).2.1)
      (cGCMParams w (NewGCMParams (some l) A T) h).2.2 = none := by
  have hlen : Slice.len (NewGCMParams (some l) A T).iv = 2147483648 := by
    simp only [NewGCMParams, Slice.len, hl]
  obtain ⟨hp, hq, _⟩ := cGCMParams_iv_nonempty w (NewGCMParams (some l) A T) h (by omega)
  rw [IV_after_cGCMParams, hp, hq, hlen]
  have hc : C_int 2147483648 = -2147483648 := by decide
  rw [hc]
  simp [GoBytes]

/-- Counterexample to C5 as stated: for an IV of `2^31` zero bytes `IV()`
panics, so it does not return the bytes of the IV. -/
theorem IV_of_large_iv_panics :
    GCMParams.IV
      (some (cGCMParams 64 (NewGCMParams (some (List.replicate 2147483648 0)) none 128)
        Heap.empty).2.1)
      (cGCMParams 64 (NewGCMParams (some (List.replicate 2147483648 0)) none 128)
        Heap.empty).2.2 = none ∧
    GCMParams.IV
      (some (cGCMParams 64 (NewGCMParams (some (List.replicate 2147483648 0)) none 128)
        Heap.empty).2.1)
      (cGCMParams 64 (NewGCMParams (some (List.replicate 2147483648 0)) none 128)
        Heap.empty).2.2 ≠ some (some (List.replicate 2147483648 0)) := by
  have hpanic := IV_panics_of_length 64 (List.replicate 2147483648 0) none 128 Heap.empty
    (List.length_replicate _ _)
  refine ⟨hpanic, ?_⟩
  rw [hpanic]
  exact (Option.some_ne_none _).symm

/-- The conversion `C.CK_ULONG` keeps a value that fits the type. -/
lemma CK_ULONG_of_fits (w : Nat) (T : Int) (h0 : 0 ≤ T) (h1 : T < 2 ^ w) :
    ((CK_ULONG w T : Nat) : Int) = T := by
  unfold CK_ULONG
  rw [Int.emod_eq_of_lt h0 h1, Int.toNat_of_nonneg h0]

/-- The conversion `C.CK_ULONG` returns the value itself exactly when the
value fits the type. -/
lemma CK_ULONG_eq_iff (w : Nat) (T : Int) :
    ((CK_ULONG w T : Nat) : Int) = T ↔ 0 ≤ T ∧ T < 2 ^ w := by
  constructor
  · intro h
    have hpos : (0 : Int) < 2 ^ w := by positivity
    have hnn : 0 ≤ T % 2 ^ w := Int.emod_nonneg T (ne_of_gt hpos)
    have hlt : T % 2 ^ w < 2 ^ w := Int.emod_lt_of_pos T hpos
    have hval : ((CK_ULONG w T : Nat) : Int) = T % 2 ^ w := by
      unfold CK_ULONG
      exact Int.toNat_of_nonneg hnn
    rw [hval] at h
    exact ⟨by rw [← h]; exact hnn, by rw [← h]; exact hlt⟩
  · rintro ⟨h0, h1⟩
    exact CK_ULONG_of_fits w T h0 h1

/-- C6, as amended: the structure realized by `cGCMParams` carries the tag
size converted to `CK_ULONG`, which is the tag size `T` itself exactly when
`0 ≤ T < 2^w`; it has its IV pointer set exactly when the IV is non-empty and
its AAD pointer set exactly when the AAD is non-empty; each non-empty input
costs one allocation and an empty one none, so with both empty every pointer
and length field is zero, the arena is nil and foreign memory is untouched. -/
theorem cGCMParams_layout (w : Nat) (I A : Slice Byte) (T : Int) (h : Heap) :
    (cGCMParams w (NewGCMParams I A T) h).2.1.params
      = some (cGCMParams w (NewGCMParams I A T) h).1 ∧
    (cGCMParams w (NewGCMParams I A T) h).1.ulTagBits = CK_ULONG w T ∧
    ((((cGCMParams w (NewGCMParams I A T) h).1.ulTagBits : Nat) : Int) = T
      ↔ 0 ≤ T ∧ T < 2 ^ w) ∧
    ((cGCMParams w (NewGCMParams I A T) h).1.pIv ≠ 0 ↔ 0 < Slice.len I) ∧
    ((cGCMParams w (NewGCMParams I A T) h).1.pAAD ≠ 0 ↔ 0 < Slice.len A) ∧
    (cGCMParams w (NewGCMParams I A T) h).2.2.live.length
      = h.live.length + (if 0 < Slice.len I then 1 else 0)
        + (if 0 < Slice.len A then 1 else 0) ∧
    Slice.len (cGCMParams w (NewGCMParams I A T) h).2.1.arena
      = (if 0 < Slice.len I then 1 else 0) + (if 0 < Slice.len A then 1 else 0) ∧
    (Slice.len I = 0 → Slice.len A = 0 →
      (cGCMParams w (NewGCMParams I A T) h).1
        = { pIv := 0, ulIvLen := 0, ulIvBits := 0, pAAD := 0, ulAADLen := 0,
            ulTagBits := CK_ULONG w T } ∧
      (cGCMParams w (NewGCMParams I A T) h).2.1.arena = none ∧
      (cGCMParams w (NewGCMParams I A T) h).2.2 = h) := by
  have htag : (cGCMParams w (NewGCMParams I A T) h).1.ulTagBits = CK_ULONG w T := by
    by_cases hi : 0 < Slice.len I <;> by_cases ha : 0 < Slice.len A <;>
      simp [cGCMParams, NewGCMParams, hi, ha]
  refine ⟨cGCMParams_params _ _ _, htag, ?_, ?_, ?_, ?_, ?_, ?_⟩
  · rw [htag]
    exact CK_ULONG_eq_iff w T
  · by_cases hi : 0 < Slice.len I <;> by_cases ha : 0 < Slice.len A <;>
      simp [cGCMParams, NewGCMParams, hi, ha, arena.Allocate, Heap.alloc, Heap.fresh_ne_zero]
  · by_cases hi : 0 < Slice.len I <;> by_cases ha : 0 < Slice.len A <;>
      simp [cGCMParams, NewGCMParams, hi, ha, arena.Allocate, Heap.alloc, Heap.fresh_ne_zero]
  · by_cases hi : 0 < Slice.len I <;> by_cases ha : 0 < Slice.len A <;>
      simp [cGCMParams, NewGCMParams, hi, ha, arena.Allocate, Heap.alloc]
  · by_cases hi : 0 < Slice.len I <;> by_cases ha : 0 < Slice.len A <;>
      simp [cGCMParams, NewGCMParams, hi, ha, arena.Allocate, Heap.alloc, Slice.len_some,
        Slice.len_none]
  · intro hi ha
    simp [cGCMParams, NewGCMParams, hi, ha]

/-- Witness of C6: a 128-bit tag with empty IV and AAD on one side, and with
a 3-byte IV and no AAD on the other. -/
theorem cGCMParams_layout_witness :
    (cGCMParams 64 (NewGCMParams (some []) none 128) Heap.empty).1
      = { pIv := 0, ulIvLen := 0, ulIvBits := 0, pAAD := 0, ulAADLen := 0, ulTagBits := 128 } ∧
    (cGCMParams 64 (NewGCMParams (some []) none 128) Heap.empty).2.1.arena = none ∧
    (cGCMParams 64 (NewGCMParams (some []) none 128) Heap.empty).2.2 = Heap.empty ∧
    (((cGCMParams 64 (NewGCMParams (some [1, 2, 3]) none 128) Heap.empty).1.ulTagBits : Nat)
      : Int) = 128 ∧
    (cGCMParams 64 (NewGCMParams (some [1, 2, 3]) none 128) Heap.empty).1.pIv ≠ 0 := by
  have h1 := (cGCMParams_layout 64 (some []) none 128 Heap.empty).2.2.2.2.2.2.2 rfl rfl
  have h2 := cGCMParams_layout 64 (some [1, 2, 3]) none 128 Heap.empty
  exact ⟨h1.1, h1.2.1, h1.2.2, h2.2.2.1.mpr ⟨by decide, by decide⟩,
    h2.2.2.2.1.mpr (by decide)⟩

/-- Counterexample to C6 as stated: for the tag size `-1` the tag-bit-length
field of the realized structure is `2^64 - 1` on a 64-bit `CK_ULONG`, not
`-1`; and on a 32-bit `CK_ULONG` the tag size `2^32 + 128` gives `128`. -/
theorem tag_field_wraps :
    (cGCMParams 64 (NewGCMParams none none (-1)) Heap.empty).1.ulTagBits
      = 18446744073709551615 ∧
    (((cGCMParams 64 (NewGCMParams none none (-1)) Heap.empty).1.ulTagBits : Nat) : Int)
      ≠ -1 ∧
    (cGCMParams 32 (NewGCMParams none none 4294967424) Heap.empty).1.ulTagBits = 128 := by
  refine ⟨by decide, by decide, by decide⟩

/-- C7: `Free()` is idempotent: a second call leaves the state of the first
and hands nothing more to `free`; on a parameter that was never realized,
and on a nil parameter, `Free()` changes nothing. -/
theorem Free_idempotent (p : Option GCMParams) (h : Heap) :
    GCMParams.Free (GCMParams.Free p h).1 (GCMParams.Free p h).2 = GCMParams.Free p h ∧
    (GCMParams.Free (GCMParams.Free p h).1 (GCMParams.Free p h).2).2.released
      = (GCMParams.Free p h).2.released ∧
    (∀ (iv aad : Slice Byte) (T : Int),
      GCMParams.Free (some (NewGCMParams iv aad T)) h = (some (NewGCMParams iv aad T), h)) ∧
    GCMParams.Free none h = (none, h) := by
  have key : GCMParams.Free (GCMParams.Free p h).1 (GCMParams.Free p h).2
      = GCMParams.Free p h := by
    rcases p with _ | q
    · rfl
    · by_cases hq : q.arena = none
      · simp [GCMParams.Free, hq]
      · simp [GCMParams.Free, hq]
  exact ⟨key, by rw [key], fun iv aad T => by simp [GCMParams.Free, NewGCMParams], rfl⟩

/-- With a non-nil arena `Free()` releases the arena's blocks and resets
both the realized structure and the arena. -/
lemma Free_of_arena (q : GCMParams) (h : Heap) (hq : q.arena ≠ none) :
    GCMParams.Free (some q) h
      = (some { q with arena := none, params := none }, (q.arena.getD []).foldl Heap.free h) := by
  simp [GCMParams.Free, hq, arena.Free]

/-- C8, as amended: for a parameter realized with a non-empty IV or a
non-empty AAD, `Free()` leaves no realized structure and no arena, and
`IV()` then returns nil. -/
theorem Free_invalidates (w : Nat) (I A : Slice Byte) (T : Int) (h : Heap)
    (hne : 0 < Slice.len I ∨ 0 < Slice.len A) :
    (∃ q, (GCMParams.Free (some (cGCMParams w (NewGCMParams I A T) h).2.1)
        (cGCMParams w (NewGCMParams I A T) h).2.2).1 = some q ∧
      q.params = none ∧ q.arena = none) ∧
    GCMParams.IV
      (GCMParams.Free (some (cGCMParams w (NewGCMParams I A T) h).2.1)
        (cGCMParams w (NewGCMParams I A T) h).2.2).1
      (GCMParams.Free (some (cGCMParams w (NewGCMParams I A T) h).2.1)
        (cGCMParams w (NewGCMParams I A T) h).2.2).2 = some none := by
  have harena : (cGCMParams w (NewGCMParams I A T) h).2.1.arena ≠ none := by
    by_cases hi : 0 < Slice.len I <;> by_cases ha : 0 < Slice.len A
    · simp [cGCMParams, NewGCMParams, hi, ha, arena.Allocate]
    · simp [cGCMParams, NewGCMParams, hi, ha, arena.Allocate]
    · simp [cGCMParams, NewGCMParams, hi, ha, arena.Allocate]
    · exact absurd hne (by tauto)
  have hfree := Free_of_arena (cGCMParams w (NewGCMParams I A T) h).2.1
    (cGCMParams w (NewGCMParams I A T) h).2.2 harena
  rw [hfree]
  exact ⟨⟨_, rfl, rfl, rfl⟩, rfl⟩

/-- Witness of C8: a parameter realized with a 3-byte IV and freed. -/
theorem Free_invalidates_witness :
    (0 < Slice.len (some [1, 2, 3] : Slice Byte) ∨ 0 < Slice.len (none : Slice Byte)) ∧
    GCMParams.IV
      (GCMParams.Free (some (cGCMParams 64 (NewGCMParams (some [1, 2, 3]) none 128)
        Heap.empty).2.1)
        (cGCMParams 64 (NewGCMParams (some [1, 2, 3]) none 128) Heap.empty).2.2).1
      (GCMParams.Free (some (cGCMParams 64 (NewGCMParams (some [1, 2, 3]) none 128)
        Heap.empty).2.1)
        (cGCMParams 64 (NewGCMParams (some [1, 2, 3]) none 128) Heap.empty).2.2).2
      = some none :=
  ⟨Or.inl (by decide),
   (Free_invalidates 64 (some [1, 2, 3]) none 128 Heap.empty (Or.inl (by decide))).2⟩

/-- Counterexample to C8 as stated: a parameter realized with empty IV and
empty AAD has a nil arena, so `Free()` returns at its guard: the realized
structure stays in place and `IV()` returns an empty, non-nil slice. -/
theorem Free_keeps_params_when_arena_nil :
    (GCMParams.Free (some (cGCMParams 64 (NewGCMParams none none 128) Heap.empty).2.1)
        (cGCMParams 64 (NewGCMParams none none 128) Heap.empty).2.2).1
      = some { arena := none, iv := none, aad := none, tagSize := 128,
               params := some { pIv := 0, ulIvLen := 0, ulIvBits := 0, pAAD := 0,
                                ulAADLen := 0, ulTagBits := 128 } } ∧
    GCMParams.IV
      (GCMParams.Free (some (cGCMParams 64 (NewGCMParams none none 128) Heap.empty).2.1)
        (cGCMParams 64 (NewGCMParams none none 128) Heap.empty).2.2).1
      (GCMParams.Free (some (cGCMParams 64 (NewGCMParams none none 128) Heap.empty).2.1)
        (cGCMParams 64 (NewGCMParams none none 128) Heap.empty).2.2).2
      = some (some []) := by
  constructor <;> rfl

/-- C10 at the failing input: a parameter with a 1-byte IV is realized twice
and freed once. The second realization overwrites the arena of the first, so
`Free()` releases only block `2`; block `1`, allocated by the first
realization, stays live and no arena refers to it. -/
theorem second_realization_leaks_first :
    GCMParams.Free
        (some ((realize 64)^[2] (NewGCMParams (some [1]) none 128, Heap.empty)).1)
        ((realize 64)^[2] (NewGCMParams (some [1]) none 128, Heap.empty)).2
      = (some { arena := none, params := none, iv := some [1], aad := none, tagSize := 128 },
         { live := [(1, [1])], released := [2] }) := by
  rfl

/-- Releasing addresses other than `a` keeps the live block at `a` and keeps
`a` out of the release log. -/
lemma foldl_free_keeps (l : List Ptr) (h : Heap) (a : Ptr) (b : List Byte)
    (hlive : (a, b) ∈ h.live) (hrel : a ∉ h.released) (hl : ∀ q ∈ l, q ≠ a) :
    (a, b) ∈ (l.foldl Heap.free h).live ∧ a ∉ (l.foldl Heap.free h).released := by
  induction l generalizing h with
  | nil => exact ⟨hlive, hrel⟩
  | cons q t ih =>
    have hq : q ≠ a := hl q (List.mem_cons_self _ _)
    apply ih
    · simp only [Heap.free, List.mem_filter]
      exact ⟨hlive, by simpa using fun hqa : a = q => hq hqa.symm⟩
    · simp only [Heap.free, List.mem_append, List.mem_singleton, not_or]
      exact ⟨hrel, fun hqa => hq hqa.symm⟩
    · intro r hr
      exact hl r (List.mem_cons_of_mem _ hr)

/-- A realization keeps the logical IV. -/
lemma realize_iv (w : Nat) (s : GCMParams × Heap) : (realize w s).1.iv = s.1.iv := by
  simp [realize, cGCMParams]

/-- A realization releases nothing. -/
lemma realize_released (w : Nat) (s : GCMParams × Heap) :
    (realize w s).2.released = s.2.released := by
  by_cases hi : 0 < Slice.len s.1.iv <;> by_cases ha : 0 < Slice.len s.1.aad <;>
    simp [realize, cGCMParams, hi, ha, arena.Allocate, Heap.alloc]

/-- A realization keeps every live block. -/
lemma realize_live_mono (w : Nat) (s : GCMParams × Heap) (x : Ptr × List Byte)
    (hx : x ∈ s.2.live) : x ∈ (realize w s).2.live := by
  by_cases hi : 0 < Slice.len s.1.iv <;> by_cases ha : 0 < Slice.len s.1.aad <;>
    simp [realize, cGCMParams, hi, ha, arena.Allocate, Heap.alloc, hx]

/-- The first realization of a parameter with a non-empty IV places the IV
bytes in a live block at the fresh address. -/
lemma realize_first_block (w : Nat) (p : GCMParams) (h : Heap) (hiv : 0 < Slice.len p.iv) :
    (h.fresh, p.iv.getD []) ∈ (realize w (p, h)).2.live := by
  by_cases ha : 0 < Slice.len p.aad <;>
    simp [realize, cGCMParams, hiv, ha, arena.Allocate, Heap.alloc]

/-- A realization of a parameter with a non-empty IV stores a non-nil arena
whose addresses all lie above the blocks that were live before. -/
lemma realize_arena_fresh (w : Nat) (s : GCMParams × Heap) (hiv : 0 < Slice.len s.1.iv)
    (x : Ptr × List Byte) (hx : x ∈ s.2.live) :
    (realize w s).1.arena ≠ none ∧ ∀ q ∈ (realize w s).1.arena.getD [], q ≠ x.1 := by
  have h1 : x.1 < s.2.fresh := s.2.live_lt_fresh x hx
  by_cases ha : 0 < Slice.len s.1.aad
  · have h2 : x.1 < (s.2.alloc (s.1.iv.getD [])).2.fresh :=
      (s.2.alloc (s.1.iv.getD [])).2.live_lt_fresh x (by simp [Heap.alloc, hx])
    refine ⟨by simp [realize, cGCMParams, hiv, ha, arena.Allocate], ?_⟩
    intro q hq
    simp only [realize, cGCMParams, hiv, ha, if_true, arena.Allocate, Option.getD_some,
      Option.getD_none, List.nil_append, List.mem_append, List.mem_singleton,
      List.cons_append, List.mem_cons, List.not_mem_nil, or_false] at hq
    rcases hq with rfl | rfl
    · exact Nat.ne_of_gt h1
    · exact Nat.ne_of_gt h2
  · refine ⟨by simp [realize, cGCMParams, hiv, ha, arena.Allocate], ?_⟩
    intro q hq
    simp only [realize, cGCMParams, hiv, ha, if_true, if_false, arena.Allocate,
      Option.getD_none, List.nil_append, Option.getD_some, List.mem_singleton] at hq
    subst hq
    exact Nat.ne_of_gt h1

/-- The block of the first realization survives every further realization. -/
lemma iterate_realize_keeps_first (w : Nat) (p : GCMParams) (h : Heap)
    (hiv : 0 < Slice.len p.iv) (k : Nat) :
    (h.fresh, p.iv.getD []) ∈ ((realize w)^[k + 1] (p, h)).2.live ∧
    h.fresh ∉ ((realize w)^[k + 1] (p, h)).2.released ∧
    ((realize w)^[k + 1] (p, h)).1.iv = p.iv := by
  induction k with
  | zero =>
    refine ⟨realize_first_block w p h hiv, ?_, realize_iv w (p, h)⟩
    simp only [zero_add, Function.iterate_one, realize_released]
    exact fun hmem => Nat.lt_irrefl _ (h.released_lt_fresh _ hmem)
  | succ k ih =>
    rw [Function.iterate_succ_apply']
    refine ⟨realize_live_mono w _ _ ih.1, ?_, ?_⟩
    · rw [realize_released]
      exact ih.2.1
    · rw [realize_iv]
      exact ih.2.2

/-- The leak behind C10 in general: for a parameter with a non-empty IV, any
heap and any `k + 2` realizations followed by one `Free()`, the block
allocated by the first realization is still live, was never handed to `free`,
and the parameter no longer holds an arena. -/
lemma repeated_realization_leaks (w : Nat) (p : GCMParams) (h : Heap)
    (hiv : 0 < Slice.len p.iv) (k : Nat) :
    (h.fresh, p.iv.getD []) ∈
      (GCMParams.Free (some ((realize w)^[k + 2] (p, h)).1)
        ((realize w)^[k + 2] (p, h)).2).2.live ∧
    h.fresh ∉
      (GCMParams.Free (some ((realize w)^[k + 2] (p, h)).1)
        ((realize w)^[k + 2] (p, h)).2).2.released ∧
    ∃ q, (GCMParams.Free (some ((realize w)^[k + 2] (p, h)).1)
        ((realize w)^[k + 2] (p, h)).2).1 = some q ∧ q.arena = none := by
  obtain ⟨hlive, hrel, hsame⟩ := iterate_realize_keeps_first w p h hiv k
  have hiv' : 0 < Slice.len ((realize w)^[k + 1] (p, h)).1.iv := by rw [hsame]; exact hiv
  obtain ⟨hne, hfresh⟩ := realize_arena_fresh w _ hiv' _ hlive
  have hstep : (realize w)^[k + 2] (p, h) = realize w ((realize w)^[k + 1] (p, h)) :=
    Function.iterate_succ_apply' _ _ _
  rw [hstep, Free_of_arena _ _ hne]
  have hkeep := foldl_free_keeps _ (realize w ((realize w)^[k + 1] (p, h))).2 h.fresh
    (p.iv.getD []) (realize_live_mono w _ _ hlive)
    (by rw [realize_released]; exact hrel) hfresh
  exact ⟨hkeep.1, hkeep.2, _, rfl, rfl⟩

end pkcs11

/-! ## Two threads calling `Sign` on one session: serializability -/

namespace p11

open pkcs11

/-- The step machine run alone from the start is the method `PrivateKey.Sign`. -/
lemma SignCall.rest_start {σ : Type} (c : SignCall σ) (w : World σ) :
    c.rest SignPc.start w = PrivateKey.Sign c.priv c.mechanism c.message w := by
  by_cases hl : w.locked = true
  · simp [SignCall.rest, SignCall.finish, SignPc.left, SignCall.step, PrivateKey.Sign,
SessionImpl.withLock, SessionImpl.Lock, hl, bind, Option.bind]
  · have hl' : w.locked = false := by simpa using hl
    by_cases c1 : (c.priv.Session.Ctx.SignInit c.priv.Session.Handle (some [c.mechanism])
        c.priv.ObjectHandle w.dev).1 = none
    · by_cases c2 : (c.priv.Session.Ctx.Sign c.priv.Session.Handle c.message
          (c.priv.Session.Ctx.SignInit c.priv.Session.Handle (some [c.mechanism])
            c.priv.ObjectHandle w.dev).2).1.2 = none
      · simp [SignCall.rest, SignCall.finish, SignPc.left, SignCall.step, PrivateKey.Sign,
          SessionImpl.withLock, SessionImpl.Lock, SessionImpl.Unlock, World.call, hl', c1, c2,
          bind, Option.bind]
      · simp [SignCall.rest, SignCall.finish, SignPc.left, SignCall.step, PrivateKey.Sign,
          SessionImpl.withLock, SessionImpl.Lock, SessionImpl.Unlock, World.call, hl', c1, c2,
          bind, Option.bind]
    · simp [SignCall.rest, SignCall.finish, SignPc.left, SignCall.step, PrivateKey.Sign,
        SessionImpl.withLock, SessionImpl.Lock, SessionImpl.Unlock, World.call, hl', c1,
        bind, Option.bind]

/-- With any fuel, a thread that has returned yields its return values. -/
lemma SignCall.finish_done {σ : Type} (c : SignCall σ) (n : Nat) (r : Slice Byte × error)
    (w : World σ) : c.finish n (SignPc.done r) w = some (r, w) := by
  cases n <;> rfl

/-- With any fuel left, a thread about to return runs its deferred unlock. -/
lemma SignCall.finish_returning {σ : Type} (c : SignCall σ) (n : Nat)
    (r : Slice Byte × error) (w : World σ) :
    c.finish (n + 1) (SignPc.returning r) w
      = (c.priv.Session.Unlock w).map fun w1 => (r, w1) := by
  cases hu : c.priv.Session.Unlock w <;>
    simp [SignCall.finish, SignCall.step, hu, SignCall.finish_done]

/-- A thread that has returned has nothing left to do. -/
lemma SignCall.rest_done {σ : Type} (c : SignCall σ) (r : Slice Byte × error) (w : World σ) :
    c.rest (SignPc.done r) w = some (r, w) := by
  simp [SignCall.rest, SignCall.finish, SignPc.left]

/-- A step of a thread running alone does not change where the call ends. -/
lemma SignCall.rest_step {σ : Type} (c : SignCall σ) (pc pc' : SignPc) (w w' : World σ)
    (h : c.step pc w = some (pc', w')) : c.rest pc w = c.rest pc' w' := by
  cases pc with
  | start =>
    have e : c.rest SignPc.start w = c.finish 3 pc' w' := by
      show (c.step SignPc.start w).bind (fun r => c.finish 3 r.1 r.2) = _
      rw [h]; rfl
    rw [e]
    simp only [SignCall.step, Option.map_eq_some'] at h
    obtain ⟨w1, _, h2⟩ := h
    cases h2
    rfl
  | locked =>
    have e : c.rest SignPc.locked w = c.finish 2 pc' w' := by
      show (c.step SignPc.locked w).bind (fun r => c.finish 2 r.1 r.2) = _
      rw [h]; rfl
    rw [e]
    simp only [SignCall.step] at h
    split_ifs at h <;> cases h
    · simp only [SignCall.rest, SignPc.left, SignCall.finish_returning]
    · rfl
  | inited =>
    have e : c.rest SignPc.inited w = c.finish 1 pc' w' := by
      show (c.step SignPc.inited w).bind (fun r => c.finish 1 r.1 r.2) = _
      rw [h]; rfl
    rw [e]
    simp only [SignCall.step] at h
    split_ifs at h <;> cases h <;> rfl
  | returning r =>
    have e : c.rest (SignPc.returning r) w = c.finish 0 pc' w' := by
      show (c.step (SignPc.returning r) w).bind (fun r => c.finish 0 r.1 r.2) = _
      rw [h]; rfl
    rw [e]
    simp only [SignCall.step, Option.map_eq_some'] at h
    obtain ⟨w1, _, h2⟩ := h
    cases h2
    rfl
  | done r => simp [SignCall.step] at h

/-- A call cannot begin while the mutex is held. -/
lemma SignCall.rest_start_locked {σ : Type} (c : SignCall σ) (w : World σ)
    (hl : w.locked = true) : c.rest SignPc.start w = none := by
  simp [SignCall.rest, SignCall.finish, SignPc.left, SignCall.step, SessionImpl.Lock, hl]

/-- What a step does to the mutex and to the position of the thread. -/
lemma SignCall.step_mutex {σ : Type} (c : SignCall σ) (pc pc' : SignPc) (w w' : World σ)
    (h : c.step pc w = some (pc', w')) :
    (pc = SignPc.start ∧ w.locked = false ∧ pc' = SignPc.locked ∧ w'.locked = true) ∨
    (pc.crit = true ∧ pc'.crit = true ∧ w'.locked = w.locked) ∨
    (∃ r, pc = SignPc.returning r ∧ w.locked = true ∧ pc' = SignPc.done r ∧
      w'.locked = false) := by
  cases pc with
  | start =>
    left
    by_cases hl : w.locked = true
    · simp [SignCall.step, SessionImpl.Lock, hl] at h
    · simp only [Bool.not_eq_true] at hl
      simp only [SignCall.step, SessionImpl.Lock, hl, Bool.false_eq_true, if_false,
        Option.map_some', Option.some.injEq, Prod.mk.injEq] at h
      obtain ⟨h1, h2⟩ := h
      subst h1 h2
      exact ⟨rfl, hl, rfl, rfl⟩
  | locked =>
    right; left
    simp only [SignCall.step] at h
    split_ifs at h <;> cases h <;> simp [SignPc.crit, World.call]
  | inited =>
    right; left
    simp only [SignCall.step] at h
    split_ifs at h <;> cases h <;> simp [SignPc.crit, World.call]
  | returning r =>
    right; right
    by_cases hl : w.locked = true
    · simp only [SignCall.step, SessionImpl.Unlock, hl, if_true, Option.map_some',
        Option.some.injEq, Prod.mk.injEq] at h
      obtain ⟨h1, h2⟩ := h
      subst h1 h2
      exact ⟨r, rfl, hl, rfl, rfl⟩
    · simp [SignCall.step, SessionImpl.Unlock, hl] at h
  | done r => simp [SignCall.step] at h

/-- The mutex discipline does not depend on the order of the two threads. -/
lemma Disciplined.swap_threads {σ : Type} {a b : SignPc} {w : World σ} (h : Disciplined a b w) :
    Disciplined b a w :=
  ⟨by rw [h.1, Bool.or_comm], by rw [Bool.and_comm]; exact h.2⟩

/-- Serial outcomes do not depend on the order of the two threads. -/
lemma Serial.swap_calls {σ : Type} {c1 c2 : SignCall σ} {a b : SignPc} {w w' : World σ}
    {r1 r2 : Slice Byte × error} (h : Serial c1 c2 a b w r1 r2 w') :
    Serial c2 c1 b a w r2 r1 w' :=
  Or.symm h

/-- One step of the first thread keeps the mutex discipline, and a serial
outcome after the step is a serial outcome before it. -/
lemma serial_step {σ : Type} (c1 c2 : SignCall σ) (a a' b : SignPc) (w w1 w' : World σ)
    (r1 r2 : Slice Byte × error) (hg : Disciplined a b w)
    (hs : c1.step a w = some (a', w1)) :
    Disciplined a' b w1 ∧
    (Serial c1 c2 a' b w1 r1 r2 w' → Serial c1 c2 a b w r1 r2 w') := by
  have hrest := c1.rest_step a a' w w1 hs
  obtain ⟨hlock, hexcl⟩ := hg
  rcases c1.step_mutex a a' w w1 hs with
    ⟨ha, hw, ha', hw1⟩ | ⟨hca, hca', hw1⟩ | ⟨r, ha, hw, ha', hw1⟩
  · subst ha ha'
    have hb : b.crit = false := by
      rw [hw] at hlock
      simpa [SignPc.crit] using hlock.symm
    refine ⟨⟨by simp [SignPc.crit, hw1], by simp [hb]⟩, ?_⟩
    rintro (⟨x, h1, h2⟩ | ⟨x, h1, h2⟩)
    · exact Or.inl ⟨x, by rw [hrest]; exact h1, h2⟩
    · cases b with
      | start => rw [c2.rest_start_locked w1 hw1] at h1; cases h1
      | done r' =>
        rw [SignCall.rest_done] at h1
        cases h1
        exact Or.inl ⟨w', by rw [hrest]; exact h2, c2.rest_done _ _⟩
      | locked => simp [SignPc.crit] at hb
      | inited => simp [SignPc.crit] at hb
      | returning r' => simp [SignPc.crit] at hb
  · have hb : b.crit = false := by simpa [hca] using hexcl
    have hw : w.locked = true := by simpa [hca] using hlock
    have hw1' : w1.locked = true := by rw [hw1, hw]
    refine ⟨⟨by simp [hca', hw1'], by simp [hb]⟩, ?_⟩
    rintro (⟨x, h1, h2⟩ | ⟨x, h1, h2⟩)
    · exact Or.inl ⟨x, by rw [hrest]; exact h1, h2⟩
    · cases b with
      | start => rw [c2.rest_start_locked w1 hw1'] at h1; cases h1
      | done r' =>
        rw [SignCall.rest_done] at h1
        cases h1
        exact Or.inl ⟨w', by rw [hrest]; exact h2, c2.rest_done _ _⟩
      | locked => simp [SignPc.crit] at hb
      | inited => simp [SignPc.crit] at hb
      | returning r' => simp [SignPc.crit] at hb
  · subst ha ha'
    have hb : b.crit = false := by simpa [SignPc.crit] using hexcl
    refine ⟨⟨by rw [hw1, hb]; rfl, rfl⟩, ?_⟩
    rintro (⟨x, h1, h2⟩ | ⟨x, h1, h2⟩)
    · exact Or.inl ⟨x, by rw [hrest]; exact h1, h2⟩
    · rw [SignCall.rest_done] at h2
      cases h2
      exact Or.inl ⟨w1, by rw [hrest]; exact c1.rest_done _ _, h1⟩

/-- Every schedule that brings both threads to their return, from a state
that keeps the mutex discipline, has a serial outcome. -/
lemma runSchedule_serial {σ : Type} (cA cB : SignCall σ) (rA rB : Slice Byte × error)
    (w' : World σ) (sched : List Bool) :
    ∀ (a b : SignPc) (w : World σ), Disciplined a b w →
      runSchedule cA cB sched (a, b, w) = some (SignPc.done rA, SignPc.done rB, w') →
      Serial cA cB a b w rA rB w' := by
  induction sched with
  | nil =>
    intro a b w _ h
    simp only [runSchedule, Option.some.injEq, Prod.mk.injEq] at h
    obtain ⟨ha, hb, hw⟩ := h
    subst ha hb hw
    exact Or.inl ⟨w, cA.rest_done _ _, cB.rest_done _ _⟩
  | cons t ts ih =>
    intro a b w hg h
    cases t with
    | true =>
      cases hs : cA.step a w with
      | none => simp [runSchedule, schedStep, hs] at h
      | some s =>
        obtain ⟨a', w1⟩ := s
        have hrun : runSchedule cA cB ts (a', b, w1)
            = some (SignPc.done rA, SignPc.done rB, w') := by
          simpa [runSchedule, schedStep, hs] using h
        obtain ⟨hg', hser⟩ := serial_step cA cB a a' b w w1 w' rA rB hg hs
        exact hser (ih a' b w1 hg' hrun)
    | false =>
      cases hs : cB.step b w with
      | none => simp [runSchedule, schedStep, hs] at h
      | some s =>
        obtain ⟨b', w1⟩ := s
        have hrun : runSchedule cA cB ts (a, b', w1)
            = some (SignPc.done rA, SignPc.done rB, w') := by
          simpa [runSchedule, schedStep, hs] using h
        obtain ⟨hg', hser⟩ := serial_step cB cA b b' a w w1 w' rB rA hg.swap_threads hs
        exact (hser (ih a b' w1 hg'.swap_threads hrun).swap_calls).swap_calls

/-- Running one schedule after another. -/
lemma runSchedule_append {σ : Type} (cA cB : SignCall σ) (l1 l2 : List Bool)
    (st : SignPc × SignPc × World σ) :
    runSchedule cA cB (l1 ++ l2) st
      = (runSchedule cA cB l1 st).bind (runSchedule cA cB l2) := by
  induction l1 generalizing st with
  | nil => simp [runSchedule]
  | cons t ts ih =>
    simp only [List.cons_append, runSchedule]
    cases schedStep cA cB t st with
    | none => rfl
    | some s => simpa using ih s

/-- A call that ends when run alone is also an execution of the pair: the
first thread moves until it returns while the second stands still. -/
lemma runSchedule_first_alone {σ : Type} (cA cB : SignCall σ) (b : SignPc) (n : Nat) :
    ∀ (a : SignPc) (w w1 : World σ) (r : Slice Byte × error),
      cA.finish n a w = some (r, w1) →
      ∃ sched, runSchedule cA cB sched (a, b, w) = some (SignPc.done r, b, w1) := by
  induction n with
  | zero =>
    intro a w w1 r h
    cases a with
    | done r' =>
      simp only [SignCall.finish_done, Option.some.injEq, Prod.mk.injEq] at h
      obtain ⟨h1, h2⟩ := h
      subst h1 h2
      exact ⟨[], rfl⟩
    | start => simp [SignCall.finish] at h
    | locked => simp [SignCall.finish] at h
    | inited => simp [SignCall.finish] at h
    | returning r' => simp [SignCall.finish] at h
  | succ n ih =>
    intro a w w1 r h
    by_cases hd : ∃ r', a = SignPc.done r'
    · obtain ⟨r', rfl⟩ := hd
      simp only [SignCall.finish_done, Option.some.injEq, Prod.mk.injEq] at h
      obtain ⟨h1, h2⟩ := h
      subst h1 h2
      exact ⟨[], rfl⟩
    · have hf : cA.finish (n + 1) a w = (cA.step a w).bind fun s => cA.finish n s.1 s.2 := by
        cases a with
        | done r' => exact absurd ⟨r', rfl⟩ hd
        | start => rfl
        | locked => rfl
        | inited => rfl
        | returning r' => rfl
      rw [hf] at h
      cases hs : cA.step a w with
      | none => simp [hs] at h
      | some s =>
        rw [hs] at h
        obtain ⟨sched, hsched⟩ := ih s.1 s.2 w1 r (by simpa using h)
        exact ⟨true :: sched, by simp [runSchedule, schedStep, hs, hsched]⟩

/-- The same for the second thread. -/
lemma runSchedule_second_alone {σ : Type} (cA cB : SignCall σ) (a : SignPc) (n : Nat) :
    ∀ (b : SignPc) (w w1 : World σ) (r : Slice Byte × error),
      cB.finish n b w = some (r, w1) →
      ∃ sched, runSchedule cA cB sched (a, b, w) = some (a, SignPc.done r, w1) := by
  induction n with
  | zero =>
    intro b w w1 r h
    cases b with
    | done r' =>
      simp only [SignCall.finish_done, Option.some.injEq, Prod.mk.injEq] at h
      obtain ⟨h1, h2⟩ := h
      subst h1 h2
      exact ⟨[], rfl⟩
    | start => simp [SignCall.finish] at h
    | locked => simp [SignCall.finish] at h
    | inited => simp [SignCall.finish] at h
    | returning r' => simp [SignCall.finish] at h
  | succ n ih =>
    intro b w w1 r h
    by_cases hd : ∃ r', b = SignPc.done r'
    · obtain ⟨r', rfl⟩ := hd
      simp only [SignCall.finish_done, Option.some.injEq, Prod.mk.injEq] at h
      obtain ⟨h1, h2⟩ := h
      subst h1 h2
      exact ⟨[], rfl⟩
    · have hf : cB.finish (n + 1) b w = (cB.step b w).bind fun s => cB.finish n s.1 s.2 := by
        cases b with
        | done r' => exact absurd ⟨r', rfl⟩ hd
        | start => rfl
        | locked => rfl
        | inited => rfl
        | returning r' => rfl
      rw [hf] at h
      cases hs : cB.step b w with
      | none => simp [hs] at h
      | some s =>
        rw [hs] at h
        obtain ⟨sched, hsched⟩ := ih s.1 s.2 w1 r (by simpa using h)
        exact ⟨false :: sched, by simp [runSchedule, schedStep, hs, hsched]⟩

/-- With the mutex free, `PrivateKey.Sign` returns, leaves the mutex free and
adds one block of events to the trace: `Lock`, `SignInit`, at most one
`Sign`, `Unlock`. -/
lemma Sign_block {σ : Type} (k : Object σ) (m : Mechanism) (input : Slice Byte)
    (w : World σ) (hfree : w.locked = false) :
    ∃ r w1 op, PrivateKey.Sign k m input w = some (r, w1) ∧ w1.locked = false ∧
      (op = [] ∨ op = [Event.Sign k.Session.Handle input]) ∧
      w1.trace = w.trace ++
        ([Event.Lock, Event.SignInit k.Session.Handle (some [m]) k.ObjectHandle] ++ op ++
          [Event.Unlock]) := by
  rcases hinit : k.Session.Ctx.SignInit k.Session.Handle (some [m]) k.ObjectHandle w.dev
    with ⟨ie, d1⟩
  rcases hop : k.Session.Ctx.Sign k.Session.Handle input d1 with ⟨⟨out, oe⟩, d2⟩
  rw [Sign_run k m input w hfree ie d1 hinit out oe d2 hop]
  by_cases c : ie = none
  · rw [if_neg (not_not.mpr c)]
    exact ⟨_, _, [Event.Sign k.Session.Handle input], rfl, rfl, Or.inr rfl, by simp⟩
  · rw [if_pos c]
    exact ⟨_, _, [], rfl, rfl, Or.inl rfl, by simp⟩

/-- C9: two threads call `Sign` on the same session with keys `keyA` and
`keyB`, and the scheduler lets them move one mutex operation or native call
at a time in any order. Some schedule lets both return; and for every
schedule after which both have returned, the return values and the final
world are those of one call run to its end followed by the other, and the
trace has grown by two contiguous blocks `Lock, SignInit, (Sign), Unlock`,
one per thread: no `SignInit` of one thread lies between the `SignInit` and
the `Sign` of the other. -/
theorem concurrent_Sign_not_interleaved {σ : Type} (s : SessionImpl σ)
    (keyA keyB : ObjectHandle) (mA mB : Mechanism) (msgA msgB : Slice Byte) (w : World σ)
    (hfree : w.locked = false) :
    (∃ sched rA rB w',
      runSchedule ⟨⟨s, keyA⟩, mA, msgA⟩ ⟨⟨s, keyB⟩, mB, msgB⟩ sched
        (SignPc.start, SignPc.start, w) = some (SignPc.done rA, SignPc.done rB, w')) ∧
    ∀ sched rA rB w',
      runSchedule ⟨⟨s, keyA⟩, mA, msgA⟩ ⟨⟨s, keyB⟩, mB, msgB⟩ sched
        (SignPc.start, SignPc.start, w) = some (SignPc.done rA, SignPc.done rB, w') →
      (∃ w1 opA opB,
        PrivateKey.Sign ⟨s, keyA⟩ mA msgA w = some (rA, w1) ∧
        PrivateKey.Sign ⟨s, keyB⟩ mB msgB w1 = some (rB, w') ∧
        (opA = [] ∨ opA = [Event.Sign s.Handle msgA]) ∧
        (opB = [] ∨ opB = [Event.Sign s.Handle msgB]) ∧
        w'.trace = w.trace ++
          ([Event.Lock, Event.SignInit s.Handle (some [mA]) keyA] ++ opA ++ [Event.Unlock]) ++
          ([Event.Lock, Event.SignInit s.Handle (some [mB]) keyB] ++ opB ++ [Event.Unlock])) ∨
      (∃ w1 opA opB,
        PrivateKey.Sign ⟨s, keyB⟩ mB msgB w = some (rB, w1) ∧
        PrivateKey.Sign ⟨s, keyA⟩ mA msgA w1 = some (rA, w') ∧
        (opA = [] ∨ opA = [Event.Sign s.Handle msgA]) ∧
        (opB = [] ∨ opB = [Event.Sign s.Handle msgB]) ∧
        w'.trace = w.trace ++
          ([Event.Lock, Event.SignInit s.Handle (some [mB]) keyB] ++ opB ++ [Event.Unlock]) ++
          ([Event.Lock, Event.SignInit s.Handle (some [mA]) keyA] ++ opA ++ [Event.Unlock])) := by
  constructor
  · obtain ⟨rA, w1, _, hA, hl1, _, _⟩ := Sign_block ⟨s, keyA⟩ mA msgA w hfree
    obtain ⟨rB, w2, _, hB, _, _, _⟩ := Sign_block ⟨s, keyB⟩ mB msgB w1 hl1
    obtain ⟨l1, h1⟩ := runSchedule_first_alone ⟨⟨s, keyA⟩, mA, msgA⟩ ⟨⟨s, keyB⟩, mB, msgB⟩
      SignPc.start 4 SignPc.start w w1 rA
      (by rw [← hA]; exact SignCall.rest_start ⟨⟨s, keyA⟩, mA, msgA⟩ w)
    obtain ⟨l2, h2⟩ := runSchedule_second_alone ⟨⟨s, keyA⟩, mA, msgA⟩ ⟨⟨s, keyB⟩, mB, msgB⟩
      (SignPc.done rA) 4 SignPc.start w1 w2 rB
      (by rw [← hB]; exact SignCall.rest_start ⟨⟨s, keyB⟩, mB, msgB⟩ w1)
    exact ⟨l1 ++ l2, rA, rB, w2, by rw [runSchedule_append, h1]; exact h2⟩
  · intro sched rA rB w' hrun
    have hg : Disciplined SignPc.start SignPc.start w := ⟨by rw [hfree]; rfl, rfl⟩
    rcases runSchedule_serial _ _ rA rB w' sched _ _ w hg hrun with
      ⟨x, h1, h2⟩ | ⟨x, h1, h2⟩
    · rw [SignCall.rest_start] at h1 h2
      obtain ⟨r, w1, opA, hA, hl1, hopA, htA⟩ := Sign_block ⟨s, keyA⟩ mA msgA w hfree
      rw [hA] at h1
      cases h1
      obtain ⟨r', w2, opB, hB, _, hopB, htB⟩ := Sign_block ⟨s, keyB⟩ mB msgB x hl1
      rw [hB] at h2
      cases h2
      exact Or.inl ⟨x, opA, opB, hA, hB, hopA, hopB, by rw [htB, htA]⟩
    · rw [SignCall.rest_start] at h1 h2
      obtain ⟨r, w1, opB, hB, hl1, hopB, htB⟩ := Sign_block ⟨s, keyB⟩ mB msgB w hfree
      rw [hB] at h1
      cases h1
      obtain ⟨r', w2, opA, hA, _, hopA, htA⟩ := Sign_block ⟨s, keyA⟩ mA msgA x hl1
      rw [hA] at h2
      cases h2
      exact Or.inr ⟨x, opA, opB, hB, hA, hopA, hopB, by rw [htA, htB]⟩

/-- Witness of C9 on the stub, with keys `3` and `4` on session `7`: the
schedule that lets the first thread run to its return and then the second
ends with eight events in two blocks; a schedule that lets the second thread
move while the first holds the mutex is no execution. -/
theorem concurrent_Sign_not_interleaved_witness :
    idle.locked = false ∧
    runSchedule ⟨⟨(stubKey (some [1, 2, 3]) (none, none)).Session, 3⟩, ⟨1, none⟩, hello⟩
        ⟨⟨(stubKey (some [1, 2, 3]) (none, none)).Session, 4⟩, ⟨1, none⟩, some [7]⟩
        [true, true, false, true, true, false, false, false]
        (SignPc.start, SignPc.start, idle) = none ∧
    ((∃ w1 opA opB,
        PrivateKey.Sign ⟨(stubKey (some [1, 2, 3]) (none, none)).Session, 3⟩ ⟨1, none⟩ hello idle
          = some ((some [1, 2, 3], none), w1) ∧
        PrivateKey.Sign ⟨(stubKey (some [1, 2, 3]) (none, none)).Session, 4⟩ ⟨1, none⟩ (some [7])
          w1 = some ((some [1, 2, 3], none),
            { dev := (), locked := false, trace :=
              [Event.Lock, Event.SignInit 7 (some [⟨1, none⟩]) 3, Event.Sign 7 hello,
                Event.Unlock, Event.Lock, Event.SignInit 7 (some [⟨1, none⟩]) 4,
                Event.Sign 7 (some [7]), Event.Unlock] }) ∧
        (opA = [] ∨ opA = [Event.Sign 7 hello]) ∧
        (opB = [] ∨ opB = [Event.Sign 7 (some [7])]) ∧
        [Event.Lock, Event.SignInit 7 (some [⟨1, none⟩]) 3, Event.Sign 7 hello,
          Event.Unlock, Event.Lock, Event.SignInit 7 (some [⟨1, none⟩]) 4,
          Event.Sign 7 (some [7]), Event.Unlock]
        = [] ++ ([Event.Lock, Event.SignInit 7 (some [⟨1, none⟩]) 3] ++ opA ++ [Event.Unlock]) ++
          ([Event.Lock, Event.SignInit 7 (some [⟨1, none⟩]) 4] ++ opB ++ [Event.Unlock])) ∨
      (∃ w1 opA opB,
        PrivateKey.Sign ⟨(stubKey (some [1, 2, 3]) (none, none)).Session, 4⟩ ⟨1, none⟩ (some [7])
          idle = some ((some [1, 2, 3], none), w1) ∧
        PrivateKey.Sign ⟨(stubKey (some [1, 2, 3]) (none, none)).Session, 3⟩ ⟨1, none⟩ hello
          w1 = some ((some [1, 2, 3], none),
            { dev := (), locked := false, trace :=
              [Event.Lock, Event.SignInit 7 (some [⟨1, none⟩]) 3, Event.Sign 7 hello,
                Event.Unlock, Event.Lock, Event.SignInit 7 (some [⟨1, none⟩]) 4,
                Event.Sign 7 (some [7]), Event.Unlock] }) ∧
        (opA = [] ∨ opA = [Event.Sign 7 hello]) ∧
        (opB = [] ∨ opB = [Event.Sign 7 (some [7])]) ∧
        [Event.Lock, Event.SignInit 7 (some [⟨1, none⟩]) 3, Event.Sign 7 hello,
          Event.Unlock, Event.Lock, Event.SignInit 7 (some [⟨1, none⟩]) 4,
          Event.Sign 7 (some [7]), Event.Unlock]
        = [] ++ ([Event.Lock, Event.SignInit 7 (some [⟨1, none⟩]) 4] ++ opB ++ [Event.Unlock]) ++
          ([Event.Lock, Event.SignInit 7 (some [⟨1, none⟩]) 3] ++ opA ++ [Event.Unlock]))) :=
  ⟨rfl, rfl,
   (concurrent_Sign_not_interleaved (stubKey (some [1, 2, 3]) (none, none)).Session 3 4
      ⟨1, none⟩ ⟨1, none⟩ hello (some [7]) idle rfl).2
      [true, true, true, true, false, false, false, false]
      (some [1, 2, 3], none) (some [1, 2, 3], none)
      { dev := (), locked := false, trace :=
        [Event.Lock, Event.SignInit 7 (some [⟨1, none⟩]) 3, Event.Sign 7 hello,
          Event.Unlock, Event.Lock, Event.SignInit 7 (some [⟨1, none⟩]) 4,
          Event.Sign 7 (some [7]), Event.Unlock] } rfl⟩

end p11
